import Mathlib

/-! # rportfwd: a shallow embedding of `server.c` and `client.c`

The reverse port forwarder consists of a server (`server.c`) and a client
(`client.c`).  This development embeds the pieces of both programs that the
functional specification talks about and proves (or refutes) its claims.

Conventions of the embedding:

* `SOCKET` and `HANDLE` values are natural numbers; `INVALID_SOCKET` is the
  all-ones `UINT_PTR` of a 64-bit build.
* C `int` values are `Int`; where the C code can overflow (the session
  counter), the 32-bit wrap-around is written out with `wrap32`.
* C strings are `List Char` (the bytes before the terminating NUL).
* Calls into the operating system (`malloc`, `accept`, `recv`, `send`,
  `bind`, `_beginthreadex`) are modelled by passing the value the call
  returned as an extra argument; the effects the code has on the outside
  world (`closesocket`, `send`, thread creation) are collected in a log.
-/

namespace Rportfwd

/-! ## Machine level vocabulary -/

/-- A WinSock socket handle (`UINT_PTR`). -/
abbrev SOCKET := Nat

/-- A thread handle as returned by `_beginthreadex`. -/
abbrev HANDLE := Nat

/-- The value `(SOCKET)(~0)` of `winsock2.h` on a 64-bit build. -/
def INVALID_SOCKET : SOCKET := 18446744073709551615

/-- Smallest value of a C `int`. -/
def INT_MIN : Int := -2147483648

/-- Largest value of a C `int`. -/
def INT_MAX : Int := 2147483647

/-- Two's complement reduction of an integer to the range of a 32-bit `LONG`. -/
def wrap32 (x : Int) : Int := (x + 2147483648) % 4294967296 - 2147483648

/-- Effects of the code on the outside world, in the order they happen. -/
inductive Effect where
  | closesocket (s : SOCKET)
  | send (s : SOCKET) (msg : List Char)
  | closeHandle (h : HANDLE)
  | beginthread_accept (slot : Nat)
  | beginthread_control
  | start_proxy_pair (a b : SOCKET)
  | shutdown (s : SOCKET)
  deriving DecidableEq, Repr

/-! ## C library functions used by both programs

These are not code of the repository; they are modelled after the C standard
(and the Microsoft CRT documentation where the standard leaves the result
open, i.e. on overflow). -/

/-- The character of a decimal digit `d < 10`. -/
def digitChar (d : Nat) : Char := Char.ofNat (d + 48)

/-- Decimal digits of `n`, most significant first, in front of `acc`. -/
def fmt_nat_core : Nat → Nat → List Char → List Char
  | 0, _, acc => acc
  | fuel + 1, n, acc =>
    if n < 10 then digitChar n :: acc
    else fmt_nat_core fuel (n / 10) (digitChar (n % 10) :: acc)

/-- Decimal representation of a natural number. -/
def fmt_nat (n : Nat) : List Char := fmt_nat_core (n + 1) n []

/-- What `printf`-style `%d` writes for the `int` value `n`. -/
def fmt_d (n : Int) : List Char :=
  if n < 0 then '-' :: fmt_nat n.natAbs else fmt_nat n.toNat

/-- C `isspace` in the "C" locale. -/
def isspace (c : Char) : Bool :=
  c.toNat = 32 || (9 ≤ c.toNat && c.toNat ≤ 13)

/-- C `isdigit`. -/
def isdigit (c : Char) : Bool := 48 ≤ c.toNat && c.toNat ≤ 57

/-- Read a maximal run of decimal digits, continuing the value `acc`; returns
the value, the number of digits read and the unread rest. -/
def scan_digits : List Char → Nat → Nat → Nat × Nat × List Char
  | [], acc, k => (acc, k, [])
  | c :: cs, acc, k =>
    if isdigit c then scan_digits cs (acc * 10 + (c.toNat - 48)) (k + 1)
    else (acc, k, c :: cs)

/-- Saturation to the range of `int`, the result of the CRT conversions on
overflow. -/
def clamp_int (x : Int) : Int :=
  if x < INT_MIN then INT_MIN else if INT_MAX < x then INT_MAX else x

/-- The conversion shared by `atoi` and the `%d` directive of `sscanf`: skip
white space, read an optional sign and a run of digits.  Returns the value,
whether at least one digit was read, and the unread rest. -/
def scan_int (s : List Char) : Int × Bool × List Char :=
  match s.dropWhile isspace with
  | [] => (0, false, [])
  | c :: t =>
    if c = '-' then
      let r := scan_digits t 0 0
      (clamp_int (-(r.1 : Int)), decide (0 < r.2.1), r.2.2)
    else if c = '+' then
      let r := scan_digits t 0 0
      (clamp_int (r.1 : Int), decide (0 < r.2.1), r.2.2)
    else
      let r := scan_digits (c :: t) 0 0
      (clamp_int (r.1 : Int), decide (0 < r.2.1), r.2.2)

/-- The next character to be read, if there is one, is not a digit. -/
def no_digit_head (rest : List Char) : Prop :=
  ∀ c ∈ rest.head?, isdigit c = false

/-- C `atoi`: the converted value, `0` when there is nothing to convert. -/
def atoi (s : List Char) : Int := (scan_int s).1

/-- The call `sscanf_s(s, "%d %d", &a, &b)` with `a` and `b` initialised to
`0`: the return value and the final values of `a` and `b`. -/
def sscanf_d_d (s : List Char) : Int × Int × Int :=
  let r1 := scan_int s
  if !r1.2.1 then
    (if s.dropWhile isspace = [] then -1 else 0, 0, 0)
  else
    let r2 := scan_int (r1.2.2.dropWhile isspace)
    if !r2.2.1 then (1, r1.1, 0) else (2, r1.1, r2.1)

/-- The test `strncmp(s, lit, n) == 0` on NUL-free strings. -/
def strncmp_eq (s lit : List Char) (n : Nat) : Bool :=
  decide (s.take n = lit.take n)

/-- The loop `while (r > 0 && (line[r-1] == '\n' || line[r-1] == '\r'))
{ line[r-1] = 0; r--; }` that both programs run on a received line. -/
def trim_crlf (line : List Char) : List Char :=
  (line.reverse.dropWhile (fun c => c = '\n' || c = '\r')).reverse

/-- The result of the `recv_line` loop (identical in `server.c`, lines 229-240,
and `client.c`, lines 62-73).  `input` are the bytes the socket delivers, one
per `recv` call, `fin` (`<= 0`) is what `recv` returns once they are used up,
`room` is the number of iterations still allowed (`buflen - 1 - pos`) and `buf`
holds the bytes stored so far.  Returns the return value, the bytes stored
and the bytes left on the socket. -/
def recv_line_loop : List Char → Int → Nat → List Char → Int × List Char × List Char
  | input, _, 0, buf => (buf.length, buf, input)
  | [], fin, _ + 1, buf => (fin, buf, [])
  | c :: rest, fin, room + 1, buf =>
    if c = '\n' then ((buf ++ [c]).length, buf ++ [c], rest)
    else recv_line_loop rest fin room (buf ++ [c])

/-- `recv_line(s, buf, buflen)`. -/
def recv_line (input : List Char) (fin : Int) (buflen : Nat) :
    Int × List Char × List Char :=
  recv_line_loop input fin (buflen - 1) []

/-! ## Relay (`proxy_worker`, `server.c` lines 194-216, `client.c` lines 117-138)

The function is the same in both programs.  The source socket is described
by the chunks its successive `recv` calls deliver (after the last one, or at
an empty one, `recv` returns a value `<= 0`); the sink by the value its
`k`-th `send` call returns.  What the function does to the sink is the
sequence of its `send` calls, each with the bytes it offers; what the sink
has accepted is computed from that sequence by `sink_accepted`, outside the
function. -/

/-- A byte of relayed data. -/
abbrev Byte := Nat

/-- The size of the relay buffer, `BUF_SZ` in both programs. -/
def RELAY_BUF_SZ : Nat := 4096

/-- How the inner loop `while (sent < r)` was left. -/
inductive SendStatus where
  /-- the loop condition became false -/
  | complete
  /-- a `send` returned a value `<= 0` (`goto done`) -/
  | failed
  /-- the iteration bound of the model was used up (shown not to happen) -/
  | out_of_fuel
  deriving DecidableEq, Repr

/-- State at the exit of a relay loop: how it was left and the `send` calls
made so far, each given by the bytes `buf + sent .. buf + r` it offered.  The
`k`-th call is the `k`-th element (counted from 0). -/
structure RelayResult where
  status : SendStatus
  calls : List (List Byte)
  deriving DecidableEq, Repr

/-- The bytes the sink has accepted from a sequence of `send` calls, the
first of which is call number `k`: a call that returned `w > 0` accepted the
first `w` of the bytes offered, a call that returned `w <= 0` none. -/
def sink_accepted (send : Nat → Int) : List (List Byte) → Nat → List Byte
  | [], _ => []
  | c :: cs, k => c.take (send k).toNat ++ sink_accepted send cs (k + 1)

/-- The loop `while (sent < r) { w = send(b, buf + sent, r - sent, 0);
if (w <= 0) goto done; sent += w; }` with an iteration bound.  `calls` are
the `send` calls made before, so the next call is number `calls.length`. -/
def send_loop (send : Nat → Int) (buf : List Byte) (r : Int) :
    Nat → Int → List (List Byte) → RelayResult
  | 0, sent, calls =>
    if sent < r then ⟨SendStatus.out_of_fuel, calls⟩ else ⟨SendStatus.complete, calls⟩
  | fuel + 1, sent, calls =>
    if sent < r then
      let offered := (buf.drop sent.toNat).take (r - sent).toNat
      let w := send calls.length
      if w ≤ 0 then ⟨SendStatus.failed, calls ++ [offered]⟩
      else send_loop send buf r fuel (sent + w) (calls ++ [offered])
    else ⟨SendStatus.complete, calls⟩

/-- The outer loop `while (1) { r = recv(a, buf, sizeof(buf), 0); if (r <= 0)
break; ... }`.  The status `complete` means the loop was left through
`break`, i.e. after `recv` returned a value `<= 0`. -/
def proxy_loop (send : Nat → Int) : List (List Byte) → List (List Byte) → RelayResult
  | [], calls => ⟨SendStatus.complete, calls⟩
  | c :: rest, calls =>
    let r : Int := c.length
    if r ≤ 0 then ⟨SendStatus.complete, calls⟩
    else
      let res := send_loop send c r r.toNat 0 calls
      if res.status = SendStatus.complete then proxy_loop send rest res.calls
      else res

/-- `proxy_worker` for the pair `(a, b)`: the relay loop, then both sockets
are shut down and closed. -/
def proxy_worker (a b : SOCKET) (chunks : List (List Byte)) (send : Nat → Int) :
    RelayResult × List Effect :=
  (proxy_loop send chunks [],
   [Effect.shutdown a, Effect.shutdown b, Effect.closesocket a, Effect.closesocket b])

/-- A `send` call offering `c`, made after the calls `before`, is in order on
the byte stream `stream`: it offers at least one and at most `BUF_SZ` bytes,
and they are the bytes of the stream that follow what the sink has accepted
so far. -/
def call_ok (send : Nat → Int) (stream : List Byte) (before : List (List Byte))
    (c : List Byte) : Prop :=
  c ≠ [] ∧ c.length ≤ RELAY_BUF_SZ ∧
    c <+: stream.drop (sink_accepted send before 0).length

/-- Every call of a sequence is in order on the byte stream. -/
def trace_ok (send : Nat → Int) (stream : List Byte) (calls : List (List Byte)) : Prop :=
  ∀ j (hj : j < calls.length), call_ok send stream (calls.take j) calls[j]

namespace Server

/-! ## Server data model (`server.c`, lines 17-42) -/

def MAX_TUNNELS : Nat := 64

def BUF_SZ : Nat := 4096

/-- One node of the `Pending` linked list (without its `next` pointer: the
list structure is the Lean list). -/
structure Pending where
  sessionid : Int
  ext_sock : SOCKET
  port : Int
  deriving DecidableEq, Repr

structure Tunnel where
  port : Int
  listener : SOCKET
  thread : HANDLE
  deriving DecidableEq, Repr

/-- A zeroed `Tunnel`, as left by `ZeroMemory`. -/
def Tunnel.zero : Tunnel := ⟨0, 0, 0⟩

instance : Inhabited Tunnel := ⟨Tunnel.zero⟩

/-- The `ServerState` structure.  `tunnels` is the fixed array
`Tunnel tunnels[MAX_TUNNELS]`; `pending` is the linked list starting at the
head pointer. -/
structure ServerState where
  listener : SOCKET
  ctrl_sock : SOCKET
  tunnels : List Tunnel
  tunnel_count : Nat
  pending : List Pending
  next_sessionid : Int
  deriving DecidableEq, Repr

/-- The state set up by `main` (lines 297-309) once the main listener is bound. -/
def ServerState.init (listener : SOCKET) : ServerState :=
  { listener := listener
    ctrl_sock := 0
    tunnels := List.replicate MAX_TUNNELS Tunnel.zero
    tunnel_count := 0
    pending := []
    next_sessionid := 0 }

/-- The array element `tunnels[i]`. -/
def ServerState.tunnel (st : ServerState) (i : Nat) : Tunnel :=
  st.tunnels.getD i Tunnel.zero

/-! ## Pending queue helpers (`server.c`, lines 57-85) -/

/-- `add_pending`: `mallocOk` tells whether `malloc` returned a node.  When it
did not, the external socket is closed and nothing is enqueued; otherwise the
new node becomes the head of the list. -/
def add_pending (st : ServerState) (sid : Int) (ext : SOCKET) (port : Int)
    (mallocOk : Bool) : ServerState × List Effect :=
  if !mallocOk then (st, [Effect.closesocket ext])
  else ({ st with pending := ⟨sid, ext, port⟩ :: st.pending }, [])

/-- The `while (*pp)` loop of `pop_pending` over the list that starts at `*pp`:
the returned socket and the list that `*pp` points to afterwards. -/
def pop_pending_loop : List Pending → Int → SOCKET × List Pending
  | [], _ => (INVALID_SOCKET, [])
  | p :: rest, sid =>
    if p.sessionid = sid then (p.ext_sock, rest)
    else
      let r := pop_pending_loop rest sid
      (r.1, p :: r.2)

/-- `pop_pending`: unlink and return the first node whose `sessionid` is `sid`. -/
def pop_pending (st : ServerState) (sid : Int) : SOCKET × ServerState :=
  let r := pop_pending_loop st.pending sid
  (r.1, { st with pending := r.2 })

/-! ## Tunnel registry (`server.c`, lines 88-158) -/

/-- `SOCKET_ERROR` of `winsock2.h`. -/
def SOCKET_ERROR : Int := -1

/-- What the operating system answers to the calls made by one run of
`make_listener`: the return values of `getaddrinfo`, `socket`, `bind` and
`listen`. -/
structure ListenEnv where
  getaddrinfo : Int
  socket : SOCKET
  bind : Int
  listen : Int
  deriving DecidableEq, Repr

/-- `make_listener(addr, port)`: the listening socket or `INVALID_SOCKET`. -/
def make_listener (_addr : List Char) (_port : Int) (env : ListenEnv) :
    SOCKET × List Effect :=
  if env.getaddrinfo ≠ 0 then (INVALID_SOCKET, [])
  else if env.socket = INVALID_SOCKET then (INVALID_SOCKET, [])
  else if env.bind = SOCKET_ERROR then (INVALID_SOCKET, [Effect.closesocket env.socket])
  else if env.listen = SOCKET_ERROR then (INVALID_SOCKET, [Effect.closesocket env.socket])
  else (env.socket, [])

/-- `start_tunnel(st, port)`.  `env` answers the calls of `make_listener`,
`th` is the handle returned by `_beginthreadex`.  The accept thread is
started with a pointer to the slot `tunnels[tunnel_count]`. -/
def start_tunnel (st : ServerState) (port : Int) (env : ListenEnv) (th : HANDLE) :
    ServerState × List Effect :=
  if st.tunnel_count ≥ MAX_TUNNELS then (st, [])
  else
    let r := make_listener "0.0.0.0".toList port env
    if r.1 = INVALID_SOCKET then (st, r.2)
    else
      ({ st with
          tunnels := st.tunnels.set st.tunnel_count ⟨port, r.1, th⟩
          tunnel_count := st.tunnel_count + 1 },
       r.2 ++ [Effect.beginthread_accept st.tunnel_count])

/-- The search `for (int i = 0; i < st->tunnel_count; ++i)` of `stop_tunnel`,
started at index `i` with `n` iterations to go: the first index whose port is
`port`. -/
def find_tunnel (st : ServerState) (port : Int) : Nat → Nat → Option Nat
  | _, 0 => none
  | i, n + 1 =>
    if (st.tunnel i).port = port then some i else find_tunnel st port (i + 1) n

/-- `stop_tunnel(st, port)`: the first entry with that port has its listener
and thread handle closed and is overwritten by the last entry. -/
def stop_tunnel (st : ServerState) (port : Int) : ServerState × List Effect :=
  match find_tunnel st port 0 st.tunnel_count with
  | some i =>
    ({ st with
        tunnels := st.tunnels.set i (st.tunnel (st.tunnel_count - 1))
        tunnel_count := st.tunnel_count - 1 },
     [Effect.closesocket (st.tunnel i).listener, Effect.closeHandle (st.tunnel i).thread])
  | none => (st, [])

/-! ## Tunnel acceptor (`server.c`, lines 162-191) -/

/-- The text `sprintf_s(msg, sizeof(msg), "OPEN %d %d\n", sid, port)` writes. -/
def open_msg (sid port : Int) : List Char :=
  "OPEN ".toList ++ fmt_d sid ++ " ".toList ++ fmt_d port ++ "\n".toList

/-- Lines 173-174 of one iteration of `tunnel_accept_thread`: the session id
is the incremented 32-bit counter, and the entry is enqueued.  `slot` is the
index of the `tunnels[]` element the thread's `tun` pointer refers to. -/
def accept_enqueue (st : ServerState) (slot : Nat) (ext : SOCKET) (mallocOk : Bool) :
    Int × ServerState × List Effect :=
  let sid := wrap32 (st.next_sessionid + 1)
  let st1 := { st with next_sessionid := sid }
  let r := add_pending st1 sid ext (st1.tunnel slot).port mallocOk
  (sid, r.1, r.2)

/-- Lines 176-188 of the iteration: notify the controller if there is one,
otherwise close the external socket. -/
def accept_notify (st : ServerState) (slot : Nat) (sid : Int) (ext : SOCKET) :
    List Effect :=
  let ctrl := st.ctrl_sock
  if ctrl ≠ 0 ∧ ctrl ≠ INVALID_SOCKET then
    [Effect.send ctrl (open_msg sid (st.tunnel slot).port)]
  else [Effect.closesocket ext]

/-- One iteration of the loop of `tunnel_accept_thread`, `ext` being what
`accept` returned: `none` when the loop is left. -/
def tunnel_accept_iter (st : ServerState) (slot : Nat) (ext : SOCKET) (mallocOk : Bool) :
    Option (ServerState × List Effect) :=
  if ext = INVALID_SOCKET then none
  else
    let r := accept_enqueue st slot ext mallocOk
    some (r.2.1, r.2.2 ++ accept_notify r.2.1 slot r.1 ext)

/-! ## Acceptor and controller (`server.c`, lines 243-268 and 313-359) -/

/-- The command dispatch on a trimmed line that `handle_control_socket`
(lines 252-260) and `main` (lines 348-354) share. -/
def control_command (st : ServerState) (line : List Char) (env : ListenEnv) (th : HANDLE) :
    ServerState × List Effect :=
  if strncmp_eq line "LISTEN ".toList 7 then
    let port := atoi (line.drop 7)
    if port > 0 then start_tunnel st port env th else (st, [])
  else if strncmp_eq line "CLOSE ".toList 6 then
    let port := atoi (line.drop 6)
    if port > 0 then stop_tunnel st port else (st, [])
  else (st, [])

/-- One iteration of the loop of `handle_control_socket` for which `recv_line`
returned a line: `input` and `fin` describe the controller socket. -/
def handle_control_line (st : ServerState) (input : List Char) (fin : Int)
    (env : ListenEnv) (th : HANDLE) : Option (ServerState × List Effect) :=
  let r := recv_line input fin 512
  if r.1 ≤ 0 then none
  else
    let line := trim_crlf r.2.1
    if line.length = 0 then some (st, [])
    else some (control_command st line env th)

/-- Lines 263-266: what `handle_control_socket(st, ctrl)` does when its loop
has ended. -/
def handle_control_end (st : ServerState) (ctrl : SOCKET) : ServerState :=
  if st.ctrl_sock = ctrl then { st with ctrl_sock := 0 } else st

/-- One iteration of the loop of `main` for the accepted socket `s`; `input`
and `fin` describe what `s` delivers. -/
def main_iter (st : ServerState) (s : SOCKET) (input : List Char) (fin : Int)
    (env : ListenEnv) (th : HANDLE) : ServerState × List Effect :=
  if s = INVALID_SOCKET then (st, [])
  else
    let r := recv_line input fin 256
    if r.1 ≤ 0 then (st, [Effect.closesocket s])
    else
      let line := trim_crlf r.2.1
      if strncmp_eq line "DATA ".toList 5 then
        let sid := atoi (line.drop 5)
        let p := pop_pending st sid
        if p.1 = INVALID_SOCKET then (p.2, [Effect.closesocket s])
        else (p.2, [Effect.start_proxy_pair p.1 s])
      else
        let e0 :=
          if st.ctrl_sock ≠ 0 ∧ st.ctrl_sock ≠ INVALID_SOCKET then
            [Effect.closesocket st.ctrl_sock]
          else []
        let st1 := { st with ctrl_sock := s }
        let c := control_command st1 line env th
        (c.1, e0 ++ c.2 ++ [Effect.beginthread_control])

/-! ## The tunnel registry on its own -/

/-- The two operations on the tunnel registry, with what the environment
answers inside `start_tunnel`. -/
inductive RegOp where
  | start (port : Int) (env : ListenEnv) (th : HANDLE)
  | stop (port : Int)
  deriving DecidableEq, Repr

/-- The state after one registry operation. -/
def reg_step (st : ServerState) : RegOp → ServerState
  | RegOp.start port env th => (start_tunnel st port env th).1
  | RegOp.stop port => (stop_tunnel st port).1

/-- The state after a sequence of registry operations. -/
def reg_run (st : ServerState) : List RegOp → ServerState
  | [] => st
  | op :: ops => reg_run (reg_step st op) ops

/-- The ports of the registry entries, i.e. of the first `tunnel_count`
elements of `tunnels[]`. -/
def active_ports (st : ServerState) : List Int :=
  (st.tunnels.take st.tunnel_count).map Tunnel.port

/-- The registry has an entry for `port` (found by the search of
`stop_tunnel`). -/
def has_port (st : ServerState) (port : Int) : Bool :=
  (find_tunnel st port 0 st.tunnel_count).isSome

/-- The assumption on the operating system under which ports stay unique:
throughout the sequence, `make_listener` fails for a port that has a registry
entry (whose listener is open, as entries are removed when their listener is
closed). -/
def bind_exclusive (st : ServerState) : List RegOp → Bool
  | [] => true
  | RegOp.start port env th :: ops =>
    (!has_port st port ||
        decide ((make_listener "0.0.0.0".toList port env).1 = INVALID_SOCKET)) &&
      bind_exclusive (reg_step st (RegOp.start port env th)) ops
  | RegOp.stop port :: ops => bind_exclusive (reg_step st (RegOp.stop port)) ops

/-- The registry is well formed: the array has its 64 slots and the count is
within it. -/
def registry_wf (st : ServerState) : Prop :=
  st.tunnels.length = MAX_TUNNELS ∧ st.tunnel_count ≤ MAX_TUNNELS

/-- No two registry entries have the same port (by index). -/
def ports_distinct (st : ServerState) : Prop :=
  ∀ i j, i < j → j < st.tunnel_count → (st.tunnel i).port ≠ (st.tunnel j).port

/-! ## The server as a transition system

The threads of the server interleave at the granularity of the steps below
(each step takes the lock for its accesses to the shared state). -/

/-- The steps of the server's threads, with what the environment supplies. -/
inductive Event where
  /-- an iteration of a tunnel acceptor whose `tun` points at `tunnels[slot]` -/
  | tunnel_accept (slot : Nat) (ext : SOCKET) (mallocOk : Bool)
  /-- an iteration of the loop of `main` -/
  | main_accept (s : SOCKET) (input : List Char) (fin : Int) (env : ListenEnv) (th : HANDLE)
  /-- an iteration of the loop of `handle_control_socket` -/
  | control_line (input : List Char) (fin : Int) (env : ListenEnv) (th : HANDLE)
  /-- the end of `handle_control_socket(st, ctrl)` -/
  | control_end (ctrl : SOCKET)
  deriving DecidableEq, Repr

/-- The effect of one step on the shared state. -/
def step (st : ServerState) : Event → ServerState × List Effect
  | Event.tunnel_accept slot ext mallocOk =>
    match tunnel_accept_iter st slot ext mallocOk with
    | some r => r
    | none => (st, [])
  | Event.main_accept s input fin env th => main_iter st s input fin env th
  | Event.control_line input fin env th =>
    match handle_control_line st input fin env th with
    | some r => r
    | none => (st, [])
  | Event.control_end ctrl => (handle_control_end st ctrl, [])

/-- The state after a sequence of steps. -/
def run (st : ServerState) : List Event → ServerState
  | [] => st
  | e :: es => run (step st e).1 es

/-- The session ids handed out during a sequence of steps, in order: one for
each external connection a tunnel acceptor accepted. -/
def session_ids (st : ServerState) : List Event → List Int
  | [] => []
  | Event.tunnel_accept slot ext mallocOk :: es =>
    if ext = INVALID_SOCKET then session_ids st es
    else
      (accept_enqueue st slot ext mallocOk).1 ::
        session_ids (step st (Event.tunnel_accept slot ext mallocOk)).1 es
  | e :: es => session_ids (step st e).1 es

/-- Number of external connections accepted during a sequence of steps. -/
def accepted_count : List Event → Nat
  | [] => 0
  | Event.tunnel_accept _ ext _ :: es =>
    if ext = INVALID_SOCKET then accepted_count es else accepted_count es + 1
  | _ :: es => accepted_count es

/-- The socket that a step of `main` installs as controller, if it does. -/
def installs : Event → Option SOCKET
  | Event.main_accept s input fin _ _ =>
    if s = INVALID_SOCKET then none
    else if (recv_line input fin 256).1 ≤ 0 then none
    else if strncmp_eq (trim_crlf (recv_line input fin 256).2.1) "DATA ".toList 5 then none
    else some s
  | _ => none

/-- The controller socket installed last during a sequence of steps, `prev`
when none was installed. -/
def last_installed (prev : Option SOCKET) : List Event → Option SOCKET
  | [] => prev
  | e :: es =>
    match installs e with
    | some s => last_installed (some s) es
    | none => last_installed prev es

/-! ## Tunnel acceptor: the blocking `accept` call

A tunnel acceptor spends its time inside `accept(tun->listener, NULL, NULL)`
(line 168).  The listener is read through `tun` when the call is made; the
port is read through `tun` again after the call has returned (lines 174 and
182).  Other threads may change the registry in between. -/

/-- What a tunnel acceptor holds while it is blocked in `accept`: its pointer
`tun` (the index of the slot of `tunnels[]`) and the listener it passed to
`accept`. -/
structure AcceptTask where
  slot : Nat
  listener : SOCKET
  deriving DecidableEq, Repr

/-- Line 168, the call: the acceptor started on `tunnels[slot]` passes the
listener found in that slot to `accept`. -/
def accept_call (st : ServerState) (slot : Nat) : AcceptTask :=
  ⟨slot, (st.tunnel slot).listener⟩

/-- Lines 168-188, the return: `accept` hands `ext` to the blocked acceptor,
which runs the rest of the iteration on the state of that moment. -/
def accept_return (st : ServerState) (task : AcceptTask) (ext : SOCKET) (mallocOk : Bool) :
    Option (ServerState × List Effect) :=
  tunnel_accept_iter st task.slot ext mallocOk

/-- The port of the registry entry that owns the listener `l`, if there is
one. -/
def listener_port (st : ServerState) (l : SOCKET) : Option Int :=
  ((st.tunnels.take st.tunnel_count).find? (fun t => t.listener = l)).map Tunnel.port

/-- The slot of `tunnels[]` that the blocked acceptor `task` points to holds
the registry entry owning the listener the acceptor passed to `accept` (the
entry itself, or the copy that `stop_tunnel` left behind when it moved the
entry down). -/
def slot_holds_listener (st : ServerState) (task : AcceptTask) : Prop :=
  (st.tunnels.take st.tunnel_count).find? (fun t => t.listener = task.listener) =
    some (st.tunnel task.slot)

instance (st : ServerState) (task : AcceptTask) : Decidable (slot_holds_listener st task) :=
  inferInstanceAs (Decidable (_ = _))

end Server

/-! ## Client (`client.c`) -/

namespace Client

def MAX_TUNNELS : Nat := 128

structure TunnelMapping where
  server_port : Int
  client_addr : List Char
  client_port : Int
  deriving DecidableEq, Repr

/-- A zeroed `TunnelMapping` (static storage). -/
def TunnelMapping.zero : TunnelMapping := ⟨0, [], 0⟩

/-- The globals `mappings[MAX_TUNNELS]` and `mapping_count`. -/
structure ClientState where
  mappings : List TunnelMapping
  mapping_count : Nat
  deriving DecidableEq, Repr

/-- The globals at program start. -/
def ClientState.init : ClientState :=
  { mappings := List.replicate MAX_TUNNELS TunnelMapping.zero, mapping_count := 0 }

/-- The array element `mappings[i]`. -/
def ClientState.mapping (cs : ClientState) (i : Nat) : TunnelMapping :=
  cs.mappings.getD i TunnelMapping.zero

/-- The registry entries: the first `mapping_count` elements of `mappings[]`. -/
def ClientState.entries (cs : ClientState) : List TunnelMapping :=
  cs.mappings.take cs.mapping_count

/-- What `strncpy_s(dest, 64, src, _TRUNCATE)` leaves in `dest`. -/
def strncpy_trunc (src : List Char) : List Char := src.take 63

/-- `add_mapping` (lines 75-87). -/
def add_mapping (cs : ClientState) (server_port : Int) (client_addr : List Char)
    (client_port : Int) : ClientState :=
  if cs.mapping_count ≥ MAX_TUNNELS then cs
  else
    { mappings := cs.mappings.set cs.mapping_count
        ⟨server_port, strncpy_trunc client_addr, client_port⟩
      mapping_count := cs.mapping_count + 1 }

/-- The search loop of `remove_mapping` and `find_mapping`, started at index
`i` with `n` iterations to go: the first index whose `server_port` matches. -/
def find_index (cs : ClientState) (server_port : Int) : Nat → Nat → Option Nat
  | _, 0 => none
  | i, n + 1 =>
    if (cs.mapping i).server_port = server_port then some i
    else find_index cs server_port (i + 1) n

/-- The loop `for (j = found; j < mapping_count - 1; ++j) mappings[j] =
mappings[j + 1]`, started at `j` with `n` iterations to go. -/
def shift_down : List TunnelMapping → Nat → Nat → List TunnelMapping
  | ms, _, 0 => ms
  | ms, j, n + 1 => shift_down (ms.set j (ms.getD (j + 1) TunnelMapping.zero)) (j + 1) n

/-- `remove_mapping` (lines 89-100). -/
def remove_mapping (cs : ClientState) (server_port : Int) : ClientState :=
  match find_index cs server_port 0 cs.mapping_count with
  | some found =>
    { mappings := shift_down cs.mappings found (cs.mapping_count - 1 - found)
      mapping_count := cs.mapping_count - 1 }
  | none => cs

/-- `find_mapping` (lines 102-114): the address and port copied out, `none`
for the return value 0. -/
def find_mapping (cs : ClientState) (server_port : Int) : Option (List Char × Int) :=
  match find_index cs server_port 0 cs.mapping_count with
  | some i => some (strncpy_trunc (cs.mapping i).client_addr, (cs.mapping i).client_port)
  | none => none

/-- What the operating system answers to `getaddrinfo`, `socket` and
`connect` in one attempt to connect. -/
structure ConnectEnv where
  getaddrinfo : Int
  socket : SOCKET
  connect : Int
  deriving DecidableEq, Repr

/-- `connect_to_server` (lines 46-59), also the shape of the inline connect
to the target in `handle_open` (lines 169-187). -/
def connect_to_server (env : ConnectEnv) : SOCKET × List Effect :=
  if env.getaddrinfo ≠ 0 then (INVALID_SOCKET, [])
  else if env.socket = INVALID_SOCKET then (INVALID_SOCKET, [])
  else if env.connect = -1 then (INVALID_SOCKET, [Effect.closesocket env.socket])
  else (env.socket, [])

/-- The text `sprintf_s(line, sizeof(line), "DATA %d\n", sessionid)` writes. -/
def data_msg (sessionid : Int) : List Char :=
  "DATA ".toList ++ fmt_d sessionid ++ "\n".toList

/-- The text `sprintf_s(out, sizeof(out), "LISTEN %d %s %d\n", srvp, claddr,
clp)` writes (`main`, line 263). -/
def listen_msg (srvp : Int) (claddr : List Char) (clp : Int) : List Char :=
  "LISTEN ".toList ++ fmt_d srvp ++ " ".toList ++ claddr ++ " ".toList ++ fmt_d clp ++
    "\n".toList

/-- The text `sprintf_s(out, sizeof(out), "CLOSE %d\n", srvp)` writes (`main`,
line 274). -/
def close_msg (srvp : Int) : List Char :=
  "CLOSE ".toList ++ fmt_d srvp ++ "\n".toList

/-- `handle_open(sessionid, server_port)` (lines 150-197); `srv` answers the
connect to the server, `loc` the connect to the target. -/
def handle_open (cs : ClientState) (sessionid server_port : Int) (srv loc : ConnectEnv) :
    List Effect :=
  match find_mapping cs server_port with
  | none => []
  | some _ =>
    let d := connect_to_server srv
    if d.1 = INVALID_SOCKET then d.2
    else
      let e1 := [Effect.send d.1 (data_msg sessionid)]
      let t := connect_to_server loc
      if t.1 = INVALID_SOCKET then d.2 ++ e1 ++ t.2 ++ [Effect.closesocket d.1]
      else d.2 ++ e1 ++ t.2 ++ [Effect.start_proxy_pair d.1 t.1]

/-- One iteration of the loop of `control_reader` (lines 203-218): `none`
when the loop is left. -/
def control_reader_line (cs : ClientState) (input : List Char) (fin : Int)
    (srv loc : ConnectEnv) : Option (List Effect) :=
  let r := recv_line input fin 512
  if r.1 ≤ 0 then none
  else
    let line := trim_crlf r.2.1
    if line.length = 0 then some []
    else if strncmp_eq line "OPEN ".toList 5 then
      let sc := sscanf_d_d (line.drop 5)
      if sc.1 ≥ 1 then some (handle_open cs sc.2.1 sc.2.2 srv loc) else some []
    else some []

end Client

/-! ## Pending table: lemmas -/

open Server

theorem pop_pending_loop_absent (l : List Pending) (sid : Int)
    (h : ∀ x ∈ l, x.sessionid ≠ sid) :
    pop_pending_loop l sid = (INVALID_SOCKET, l) := by
  induction l with
  | nil => rfl
  | cons p rest ih =>
    have hp : p.sessionid ≠ sid := h p (List.mem_cons_self _ _)
    have hr := ih (fun x hx => h x (List.mem_cons_of_mem _ hx))
    simp [pop_pending_loop, hp, hr]

theorem pop_pending_loop_first (pre post : List Pending) (e : Pending) (sid : Int)
    (hpre : ∀ x ∈ pre, x.sessionid ≠ sid) (he : e.sessionid = sid) :
    pop_pending_loop (pre ++ e :: post) sid = (e.ext_sock, pre ++ post) := by
  induction pre with
  | nil => simp [pop_pending_loop, he]
  | cons p rest ih =>
    have hp : p.sessionid ≠ sid := hpre p (List.mem_cons_self _ _)
    have hr := ih (fun x hx => hpre x (List.mem_cons_of_mem _ hx))
    simp [pop_pending_loop, hp, hr]

/-- C3: `pop_pending` returns the external socket of the first entry (in list
order, i.e. the most recently pushed one) whose session id is `sid` and
removes exactly that entry, keeping all others in order; when no entry has
that id it returns `INVALID_SOCKET` and leaves the table unchanged.  Nothing
but the pending table changes in either case. -/
theorem C3_pop_pending_spec (st : ServerState) (sid : Int) :
    (∀ (pre post : List Pending) (e : Pending),
        st.pending = pre ++ e :: post →
        (∀ x ∈ pre, x.sessionid ≠ sid) → e.sessionid = sid →
        pop_pending st sid = (e.ext_sock, { st with pending := pre ++ post })) ∧
    ((∀ x ∈ st.pending, x.sessionid ≠ sid) →
        pop_pending st sid = (INVALID_SOCKET, st)) := by
  constructor
  · intro pre post e hl hpre he
    simp [pop_pending, hl, pop_pending_loop_first pre post e sid hpre he]
  · intro h
    simp [pop_pending, pop_pending_loop_absent _ sid h]

theorem C3_pop_pending_spec_witness :
    pop_pending
        { ServerState.init 3 with
          pending := [⟨5, 11, 80⟩, ⟨4, 12, 80⟩, ⟨4, 13, 81⟩, ⟨2, 14, 80⟩] } 4
      = (12, { ServerState.init 3 with
               pending := [⟨5, 11, 80⟩] ++ [⟨4, 13, 81⟩, ⟨2, 14, 80⟩] }) ∧
    pop_pending { ServerState.init 3 with pending := [⟨5, 11, 80⟩] } 4
      = (INVALID_SOCKET, { ServerState.init 3 with pending := [⟨5, 11, 80⟩] }) :=
  ⟨(C3_pop_pending_spec
      { ServerState.init 3 with
        pending := [⟨5, 11, 80⟩, ⟨4, 12, 80⟩, ⟨4, 13, 81⟩, ⟨2, 14, 80⟩] } 4).1
      [⟨5, 11, 80⟩] [⟨4, 13, 81⟩, ⟨2, 14, 80⟩] ⟨4, 12, 80⟩ rfl
      (by decide) rfl,
   (C3_pop_pending_spec { ServerState.init 3 with pending := [⟨5, 11, 80⟩] } 4).2
      (by decide)⟩

/-! ## Rendezvous (tunnel acceptor and DATA dispatch) -/

theorem pop_pending_add_pending (st : ServerState) (sid : Int) (ext : SOCKET) (port : Int) :
    pop_pending (add_pending st sid ext port true).1 sid = (ext, st) := by
  simp [pop_pending, add_pending, pop_pending_loop]

/-- C1 (amended): let the controller be active, let `ext` be the socket that
`accept` returns to an acceptor blocked on the listener of the registry entry
with port `p`, let the `tunnels[]` slot the acceptor points to hold that
entry (`slot_holds_listener`; a slot that was overwritten in the meantime is
not covered), and let `add_pending` get its node from `malloc`.  Then the
iteration allocates `sid`, has `(sid, ext, p)` at the head of the pending
table when it comes to notify, emits exactly the line `OPEN <sid> <p>\n` on
the controller socket and nothing else, and a DATA dispatch for `sid` on the
resulting state returns `ext` (not `INVALID_SOCKET`) and restores the table
the step started from, whatever that table held. -/
theorem C1_rendezvous (st : ServerState) (task : AcceptTask) (ext : SOCKET) (p : Int)
    (hc0 : st.ctrl_sock ≠ 0) (hc1 : st.ctrl_sock ≠ INVALID_SOCKET)
    (hext : ext ≠ INVALID_SOCKET)
    (hp : listener_port st task.listener = some p)
    (hslot : slot_holds_listener st task) :
    (accept_enqueue st task.slot ext true).1 = wrap32 (st.next_sessionid + 1) ∧
    (accept_enqueue st task.slot ext true).2.1.pending =
      ⟨wrap32 (st.next_sessionid + 1), ext, p⟩ :: st.pending ∧
    accept_notify (accept_enqueue st task.slot ext true).2.1 task.slot
        (wrap32 (st.next_sessionid + 1)) ext =
      [Effect.send st.ctrl_sock
        ("OPEN ".toList ++ fmt_d (wrap32 (st.next_sessionid + 1)) ++ " ".toList ++
          fmt_d p ++ "\n".toList)] ∧
    accept_return st task ext true =
      some ((accept_enqueue st task.slot ext true).2.1,
        [Effect.send st.ctrl_sock (open_msg (wrap32 (st.next_sessionid + 1)) p)]) ∧
    (pop_pending (accept_enqueue st task.slot ext true).2.1
      (wrap32 (st.next_sessionid + 1))).1 = ext ∧
    (pop_pending (accept_enqueue st task.slot ext true).2.1
      (wrap32 (st.next_sessionid + 1))).1 ≠ INVALID_SOCKET ∧
    (pop_pending (accept_enqueue st task.slot ext true).2.1
      (wrap32 (st.next_sessionid + 1))).2.pending = st.pending := by
  have hport : (st.tunnels[task.slot]?.getD Tunnel.zero).port = p := by
    unfold slot_holds_listener at hslot
    unfold listener_port at hp
    rw [hslot] at hp
    simpa [ServerState.tunnel] using hp
  simp [accept_return, accept_enqueue, add_pending, accept_notify, tunnel_accept_iter,
    pop_pending, pop_pending_loop, open_msg, ServerState.tunnel, hc0, hc1, hext, hport]

theorem C1_rendezvous_witness :
    accept_return
        { ServerState.init 3 with
          ctrl_sock := 10,
          tunnels := ⟨9001, 5, 2⟩ :: ⟨9001, 5, 2⟩ :: List.replicate 62 Tunnel.zero,
          tunnel_count := 1, pending := [⟨1, 8, 9001⟩] } ⟨1, 5⟩ 7 true =
      some ((accept_enqueue
          { ServerState.init 3 with
            ctrl_sock := 10,
            tunnels := ⟨9001, 5, 2⟩ :: ⟨9001, 5, 2⟩ :: List.replicate 62 Tunnel.zero,
            tunnel_count := 1, pending := [⟨1, 8, 9001⟩] } 1 7 true).2.1,
        [Effect.send 10 (open_msg (wrap32 (0 + 1)) 9001)]) ∧
    (pop_pending (accept_enqueue
          { ServerState.init 3 with
            ctrl_sock := 10,
            tunnels := ⟨9001, 5, 2⟩ :: ⟨9001, 5, 2⟩ :: List.replicate 62 Tunnel.zero,
            tunnel_count := 1, pending := [⟨1, 8, 9001⟩] } 1 7 true).2.1
        (wrap32 (0 + 1))).1 = 7 :=
  ⟨(C1_rendezvous
      { ServerState.init 3 with
        ctrl_sock := 10,
        tunnels := ⟨9001, 5, 2⟩ :: ⟨9001, 5, 2⟩ :: List.replicate 62 Tunnel.zero,
        tunnel_count := 1, pending := [⟨1, 8, 9001⟩] } ⟨1, 5⟩ 7 9001
      (by decide) (by decide) (by decide) (by decide) (by decide)).2.2.2.1,
   (C1_rendezvous
      { ServerState.init 3 with
        ctrl_sock := 10,
        tunnels := ⟨9001, 5, 2⟩ :: ⟨9001, 5, 2⟩ :: List.replicate 62 Tunnel.zero,
        tunnel_count := 1, pending := [⟨1, 8, 9001⟩] } ⟨1, 5⟩ 7 9001
      (by decide) (by decide) (by decide) (by decide) (by decide)).2.2.2.2.1⟩

/-- C1 (as stated) fails when `malloc` returns NULL inside `add_pending`: with
controller 5 active, the iteration for the accepted socket 7 closes it,
enqueues nothing, still emits `OPEN 1 9000\n`, and the DATA dispatch for
session 1 finds `INVALID_SOCKET`. -/
theorem C1_counterexample_malloc_fails :
    tunnel_accept_iter
        { ServerState.init 3 with
          ctrl_sock := 5, tunnels := ⟨9000, 4, 1⟩ :: List.replicate 63 Tunnel.zero, tunnel_count := 1 } 0 7 false
      = some ({ ServerState.init 3 with
                ctrl_sock := 5, tunnels := ⟨9000, 4, 1⟩ :: List.replicate 63 Tunnel.zero, tunnel_count := 1,
                next_sessionid := 1 },
              [Effect.closesocket 7, Effect.send 5 "OPEN 1 9000\n".toList]) ∧
    (pop_pending
        { ServerState.init 3 with
          ctrl_sock := 5, tunnels := ⟨9000, 4, 1⟩ :: List.replicate 63 Tunnel.zero, tunnel_count := 1,
          next_sessionid := 1 } 1).1 = INVALID_SOCKET := by
  decide

/-- C4 (failing input): with no controller (`ctrl_sock = 0`) the iteration
for the accepted socket 7 on the tunnel of port 9000 closes the socket and
sends nothing, but the entry `(1, 7, 9000)` stays in the pending table, which
was empty before the step. -/
theorem C4_pending_entry_left_behind :
    tunnel_accept_iter
        { ServerState.init 3 with tunnels := ⟨9000, 4, 1⟩ :: List.replicate 63 Tunnel.zero, tunnel_count := 1 } 0 7 true
      = some ({ ServerState.init 3 with
                tunnels := ⟨9000, 4, 1⟩ :: List.replicate 63 Tunnel.zero, tunnel_count := 1,
                pending := [⟨1, 7, 9000⟩], next_sessionid := 1 },
              [Effect.closesocket 7]) ∧
    (pop_pending
        { ServerState.init 3 with
          tunnels := ⟨9000, 4, 1⟩ :: List.replicate 63 Tunnel.zero, tunnel_count := 1,
          pending := [⟨1, 7, 9000⟩], next_sessionid := 1 } 1).1 = 7 := by
  decide

/-! ## Session ids -/

theorem wrap32_succ (x : Int) : wrap32 (wrap32 x + 1) = wrap32 (x + 1) := by
  unfold wrap32; omega

theorem wrap32_small (x : Int) (h0 : -2147483648 ≤ x) (h1 : x ≤ 2147483647) :
    wrap32 x = x := by
  unfold wrap32; omega

theorem start_tunnel_next_sessionid (st : ServerState) (port : Int) (env : ListenEnv)
    (th : HANDLE) : (start_tunnel st port env th).1.next_sessionid = st.next_sessionid := by
  unfold start_tunnel
  split
  · rfl
  · dsimp only
    split <;> rfl

theorem stop_tunnel_next_sessionid (st : ServerState) (port : Int) :
    (stop_tunnel st port).1.next_sessionid = st.next_sessionid := by
  unfold stop_tunnel
  split <;> rfl

theorem control_command_next_sessionid (st : ServerState) (line : List Char)
    (env : ListenEnv) (th : HANDLE) :
    (control_command st line env th).1.next_sessionid = st.next_sessionid := by
  unfold control_command
  split
  · dsimp only
    split
    · exact start_tunnel_next_sessionid _ _ _ _
    · rfl
  · split
    · dsimp only
      split
      · exact stop_tunnel_next_sessionid _ _
      · rfl
    · rfl

theorem main_iter_next_sessionid (st : ServerState) (s : SOCKET) (input : List Char)
    (fin : Int) (env : ListenEnv) (th : HANDLE) :
    (main_iter st s input fin env th).1.next_sessionid = st.next_sessionid := by
  unfold main_iter
  split
  · rfl
  · dsimp only
    split
    · rfl
    · split
      · split <;> rfl
      · exact control_command_next_sessionid _ _ _ _

theorem handle_control_line_next_sessionid (st : ServerState) (input : List Char)
    (fin : Int) (env : ListenEnv) (th : HANDLE) (r : ServerState × List Effect)
    (h : handle_control_line st input fin env th = some r) :
    r.1.next_sessionid = st.next_sessionid := by
  unfold handle_control_line at h
  dsimp only at h
  split at h
  · cases h
  · split at h
    · cases h; rfl
    · cases h; exact control_command_next_sessionid _ _ _ _

theorem step_next_sessionid (st : ServerState) (e : Event) :
    (step st e).1.next_sessionid =
      match e with
      | Event.tunnel_accept _ ext _ =>
        if ext = INVALID_SOCKET then st.next_sessionid else wrap32 (st.next_sessionid + 1)
      | _ => st.next_sessionid := by
  cases e with
  | tunnel_accept slot ext mallocOk =>
    by_cases h : ext = INVALID_SOCKET
    · simp [step, tunnel_accept_iter, h]
    · cases mallocOk <;> simp [step, tunnel_accept_iter, accept_enqueue, add_pending, h]
  | main_accept s input fin env th => exact main_iter_next_sessionid _ _ _ _ _ _
  | control_line input fin env th =>
    simp only [step]
    cases hh : handle_control_line st input fin env th with
    | none => rfl
    | some r => exact handle_control_line_next_sessionid _ _ _ _ _ r hh
  | control_end ctrl =>
    simp only [step, handle_control_end]
    split <;> rfl

/-- The ids handed out in a run are the successive wrapped increments of the
counter the run started with. -/
theorem session_ids_eq (evs : List Event) (st : ServerState) :
    session_ids st evs =
      (List.range (accepted_count evs)).map
        (fun (k : Nat) => wrap32 (st.next_sessionid + (k : Int) + 1)) := by
  induction evs generalizing st with
  | nil => rfl
  | cons e es ih =>
    cases e with
    | tunnel_accept slot ext mallocOk =>
      by_cases h : ext = INVALID_SOCKET
      · simp only [session_ids, accepted_count, h, if_true]
        exact ih st
      · have hs := step_next_sessionid st (Event.tunnel_accept slot ext mallocOk)
        simp only [h, if_false] at hs
        simp only [session_ids, accepted_count, h, if_false, List.range_succ_eq_map,
          List.map_cons, List.map_map]
        rw [ih, hs]
        congr 1
        · simp [accept_enqueue]
        · apply List.map_congr_left
          intro k _
          simp only [Function.comp, Nat.cast_succ]
          have := wrap32_succ (st.next_sessionid + (k : Int) + 1)
          unfold wrap32 at *
          omega
    | main_accept s input fin env th =>
      have hs := step_next_sessionid st (Event.main_accept s input fin env th)
      simp only at hs
      simp only [session_ids, accepted_count]
      rw [ih, hs]
    | control_line input fin env th =>
      have hs := step_next_sessionid st (Event.control_line input fin env th)
      simp only at hs
      simp only [session_ids, accepted_count]
      rw [ih, hs]
    | control_end ctrl =>
      have hs := step_next_sessionid st (Event.control_end ctrl)
      simp only at hs
      simp only [session_ids, accepted_count]
      rw [ih, hs]

theorem accepted_count_replicate (n slot : Nat) (ext : SOCKET) (ok : Bool)
    (h : ext ≠ INVALID_SOCKET) :
    accepted_count (List.replicate n (Event.tunnel_accept slot ext ok)) = n := by
  induction n with
  | zero => rfl
  | succ n ih => simp [List.replicate_succ, accepted_count, h, ih]

theorem accepted_count_main_accept (s : SOCKET) (input : List Char) (fin : Int)
    (env : ListenEnv) (th : HANDLE) (es : List Event) :
    accepted_count (Event.main_accept s input fin env th :: es) = accepted_count es := rfl

theorem session_ids_getElem (evs : List Event) (st : ServerState) (i : Nat)
    (h : i < accepted_count evs) :
    (session_ids st evs)[i]? = some (wrap32 (st.next_sessionid + (i : Int) + 1)) := by
  rw [session_ids_eq, List.getElem?_map, List.getElem?_range h]
  rfl

/-- C2 (amended): in a run of the server in which at most 2147483647
(`INT_MAX`) external connections are accepted, the ids handed out are
1, 2, 3, ... in the order of acceptance; so each is strictly greater than the
one before and no two are equal.  Steps of the other threads do not touch the
counter. -/
theorem C2_session_ids_below_wrap (l : SOCKET) (evs : List Event)
    (h : accepted_count evs ≤ 2147483647) :
    session_ids (ServerState.init l) evs =
        (List.range (accepted_count evs)).map (fun (k : Nat) => (k : Int) + 1) ∧
    (session_ids (ServerState.init l) evs).Pairwise (· < ·) ∧
    (session_ids (ServerState.init l) evs).Nodup := by
  have heq : session_ids (ServerState.init l) evs =
      (List.range (accepted_count evs)).map (fun (k : Nat) => (k : Int) + 1) := by
    rw [session_ids_eq]
    apply List.map_congr_left
    intro k hk
    have hk2 : k < accepted_count evs := List.mem_range.mp hk
    have : (ServerState.init l).next_sessionid = 0 := rfl
    rw [this]
    rw [wrap32_small] <;> omega
  have hpw : (session_ids (ServerState.init l) evs).Pairwise (· < ·) := by
    rw [heq, List.pairwise_map]
    exact (List.pairwise_lt_range _).imp (fun {a b} hab => by omega)
  exact ⟨heq, hpw, hpw.imp (fun {a b} hab => ne_of_lt hab)⟩

theorem C2_session_ids_below_wrap_witness :
    session_ids (ServerState.init 3)
        [Event.main_accept 5 "LISTEN 9000\n".toList 0 ⟨0, 4, 0, 0⟩ 1,
         Event.tunnel_accept 0 7 true, Event.tunnel_accept 0 8 true,
         Event.main_accept 6 "DATA 1\n".toList 0 ⟨0, 4, 0, 0⟩ 1,
         Event.tunnel_accept 0 9 true]
      = [1, 2, 3] :=
  (C2_session_ids_below_wrap 3
      [Event.main_accept 5 "LISTEN 9000\n".toList 0 ⟨0, 4, 0, 0⟩ 1,
       Event.tunnel_accept 0 7 true, Event.tunnel_accept 0 8 true,
       Event.main_accept 6 "DATA 1\n".toList 0 ⟨0, 4, 0, 0⟩ 1,
       Event.tunnel_accept 0 9 true] (by decide)).1

/-- C2 (as stated) fails at the 32-bit wrap-around of `next_sessionid`: in the
run that opens the tunnel for port 9000 and then accepts 2147483648 external
connections, the connection number 2147483647 gets the id 2147483647 and the
next one gets -2147483648, which is not greater. -/
theorem C2_counterexample_wraparound :
    (session_ids (ServerState.init 3)
        (Event.main_accept 5 "LISTEN 9000\n".toList 0 ⟨0, 4, 0, 0⟩ 1 ::
          List.replicate 2147483648 (Event.tunnel_accept 0 7 true)))[2147483646]?
      = some 2147483647 ∧
    (session_ids (ServerState.init 3)
        (Event.main_accept 5 "LISTEN 9000\n".toList 0 ⟨0, 4, 0, 0⟩ 1 ::
          List.replicate 2147483648 (Event.tunnel_accept 0 7 true)))[2147483647]?
      = some (-2147483648) := by
  have hc : accepted_count
      (Event.main_accept 5 "LISTEN 9000\n".toList 0 ⟨0, 4, 0, 0⟩ 1 ::
        List.replicate 2147483648 (Event.tunnel_accept 0 7 true)) = 2147483648 := by
    rw [accepted_count_main_accept]
    exact accepted_count_replicate 2147483648 0 7 true (by decide)
  constructor
  · rw [session_ids_getElem _ _ _ (by rw [hc]; decide)]
    decide
  · rw [session_ids_getElem _ _ _ (by rw [hc]; decide)]
    decide

/-! ## Tunnel registry -/

theorem tunnel_set (st : ServerState) (i k : Nat) (t : Tunnel) (c : Nat)
    (h : i < st.tunnels.length) :
    ({ st with tunnels := st.tunnels.set i t, tunnel_count := c } : ServerState).tunnel k =
      if k = i then t else st.tunnel k := by
  simp only [ServerState.tunnel, List.getD_eq_getElem?_getD, List.getElem?_set]
  by_cases hk : k = i
  · subst hk; simp [h]
  · have : ¬ i = k := fun e => hk e.symm
    simp [hk, this]

theorem find_tunnel_some (st : ServerState) (port : Int) (n i k : Nat)
    (h : find_tunnel st port i n = some k) :
    i ≤ k ∧ k < i + n ∧ (st.tunnel k).port = port ∧
      ∀ j, i ≤ j → j < k → (st.tunnel j).port ≠ port := by
  induction n generalizing i with
  | zero => simp [find_tunnel] at h
  | succ n ih =>
    rw [find_tunnel] at h
    split at h
    · rename_i hp
      cases h
      exact ⟨le_refl _, by omega, hp, fun j h1 h2 => by omega⟩
    · rename_i hp
      obtain ⟨h1, h2, h3, h4⟩ := ih (i + 1) h
      refine ⟨by omega, by omega, h3, fun j hj1 hj2 => ?_⟩
      by_cases hji : j = i
      · subst hji; exact hp
      · exact h4 j (by omega) hj2

theorem find_tunnel_none (st : ServerState) (port : Int) (n i : Nat)
    (h : find_tunnel st port i n = none) :
    ∀ j, i ≤ j → j < i + n → (st.tunnel j).port ≠ port := by
  induction n generalizing i with
  | zero => intro j h1 h2; omega
  | succ n ih =>
    rw [find_tunnel] at h
    split at h
    · cases h
    · rename_i hp
      intro j h1 h2
      by_cases hji : j = i
      · subst hji; exact hp
      · exact ih (i + 1) h j (by omega) (by omega)

theorem has_port_false (st : ServerState) (port : Int) (h : has_port st port = false) :
    ∀ j, j < st.tunnel_count → (st.tunnel j).port ≠ port := by
  unfold has_port at h
  have hn : find_tunnel st port 0 st.tunnel_count = none := by
    cases hf : find_tunnel st port 0 st.tunnel_count with
    | none => rfl
    | some k => rw [hf] at h; simp at h
  intro j hj
  exact find_tunnel_none st port _ 0 hn j (Nat.zero_le _) (by omega)

theorem start_tunnel_preserves (st : ServerState) (port : Int) (env : ListenEnv)
    (th : HANDLE) (hwf : registry_wf st) (hd : ports_distinct st)
    (hx : has_port st port = false ∨
      (make_listener "0.0.0.0".toList port env).1 = INVALID_SOCKET) :
    registry_wf (start_tunnel st port env th).1 ∧
      ports_distinct (start_tunnel st port env th).1 := by
  unfold start_tunnel
  split
  · exact ⟨hwf, hd⟩
  · rename_i hcount
    dsimp only
    split
    · exact ⟨hwf, hd⟩
    · rename_i hl
      have hfree : has_port st port = false := by
        rcases hx with h | h
        · exact h
        · exact absurd h hl
      have hlen : st.tunnel_count < st.tunnels.length := by
        have := hwf.1; unfold MAX_TUNNELS at *; omega
      refine ⟨⟨by simpa using hwf.1, ?_⟩, ?_⟩
      · show st.tunnel_count + 1 ≤ MAX_TUNNELS
        unfold MAX_TUNNELS at *; omega
      · intro i j hij hj
        have hj2 : j < st.tunnel_count + 1 := hj
        rw [tunnel_set st _ i _ _ hlen, tunnel_set st _ j _ _ hlen]
        have hi : ¬ i = st.tunnel_count := by omega
        rw [if_neg hi]
        by_cases hjc : j = st.tunnel_count
        · rw [if_pos hjc]
          exact has_port_false st port hfree i (by omega)
        · rw [if_neg hjc]
          exact hd i j hij (by omega)

theorem stop_tunnel_preserves (st : ServerState) (port : Int)
    (hwf : registry_wf st) (hd : ports_distinct st) :
    registry_wf (stop_tunnel st port).1 ∧ ports_distinct (stop_tunnel st port).1 := by
  unfold stop_tunnel
  split
  · rename_i k hk
    obtain ⟨_, hkc, _, _⟩ := find_tunnel_some st port _ 0 k hk
    have hlen : k < st.tunnels.length := by
      have := hwf.1; have := hwf.2; omega
    refine ⟨⟨by simpa using hwf.1, ?_⟩, ?_⟩
    · show st.tunnel_count - 1 ≤ MAX_TUNNELS
      have := hwf.2; omega
    · intro i j hij hj
      have hj2 : j < st.tunnel_count - 1 := hj
      rw [tunnel_set st _ i _ _ hlen, tunnel_set st _ j _ _ hlen]
      by_cases hik : i = k
      · rw [if_pos hik]
        have hjk : ¬ j = k := by omega
        rw [if_neg hjk]
        exact fun e => hd j (st.tunnel_count - 1) hj2 (by omega) e.symm
      · rw [if_neg hik]
        by_cases hjk : j = k
        · rw [if_pos hjk]
          exact hd i (st.tunnel_count - 1) (by omega) (by omega)
        · rw [if_neg hjk]
          exact hd i j hij (by omega)
  · exact ⟨hwf, hd⟩

theorem reg_run_preserves (ops : List RegOp) (st : ServerState)
    (hwf : registry_wf st) (hd : ports_distinct st) (hx : bind_exclusive st ops = true) :
    registry_wf (reg_run st ops) ∧ ports_distinct (reg_run st ops) := by
  induction ops generalizing st with
  | nil => exact ⟨hwf, hd⟩
  | cons op ops ih =>
    cases op with
    | start port env th =>
      simp only [bind_exclusive, Bool.and_eq_true, Bool.or_eq_true, Bool.not_eq_true',
        decide_eq_true_eq] at hx
      obtain ⟨h1, h2⟩ := start_tunnel_preserves st port env th hwf hd hx.1
      exact ih _ h1 h2 hx.2
    | stop port =>
      simp only [bind_exclusive] at hx
      obtain ⟨h1, h2⟩ := stop_tunnel_preserves st port hwf hd
      exact ih _ h1 h2 hx

theorem active_ports_getElem (st : ServerState) (i : Nat) (h : i < (active_ports st).length) :
    (active_ports st)[i] = (st.tunnel i).port := by
  have h2 : i < st.tunnel_count ∧ i < st.tunnels.length := by
    simpa [active_ports] using h
  simp [active_ports, ServerState.tunnel, List.getElem?_eq_getElem h2.2]

theorem active_ports_length (st : ServerState) (hwf : registry_wf st) :
    (active_ports st).length = st.tunnel_count := by
  have h1 := hwf.1
  have h2 := hwf.2
  simp [active_ports]
  omega

theorem active_ports_nodup (st : ServerState) (hwf : registry_wf st)
    (hd : ports_distinct st) : (active_ports st).Nodup := by
  unfold List.Nodup
  rw [List.pairwise_iff_getElem]
  intro i j hi hj hij
  rw [active_ports_getElem st i hi, active_ports_getElem st j hj]
  rw [active_ports_length st hwf] at hj
  exact hd i j hij hj

theorem has_port_mem (st : ServerState) (port : Int) (hwf : registry_wf st)
    (h : has_port st port = true) : port ∈ active_ports st := by
  unfold has_port at h
  cases hf : find_tunnel st port 0 st.tunnel_count with
  | none => rw [hf] at h; simp at h
  | some k =>
    obtain ⟨_, hk, hp, _⟩ := find_tunnel_some st port _ 0 k hf
    have hlen : k < (active_ports st).length := by
      rw [active_ports_length st hwf]; omega
    have := List.getElem_mem hlen
    rw [active_ports_getElem st k hlen, hp] at this
    exact this

theorem registry_wf_init (l : SOCKET) : registry_wf (ServerState.init l) := by
  simp [registry_wf, ServerState.init, MAX_TUNNELS]

theorem ports_distinct_init (l : SOCKET) : ports_distinct (ServerState.init l) := by
  intro i j _ hj
  simp [ServerState.init] at hj

/-- C5: under the assumption that `make_listener` fails for a port that has a
registry entry (`bind_exclusive`), every registry state reached from the
empty registry by `start_tunnel` and `stop_tunnel` calls has pairwise
different ports in its first `tunnel_count` entries; and a further
`start_tunnel` for a port that has an entry leaves that state as it is, with
exactly one entry for the port.  (`start_tunnel` itself never searches the
registry: the failure of `make_listener` is what keeps the port out.) -/
theorem C5_one_tunnel_per_port (l : SOCKET) (ops : List RegOp)
    (hx : bind_exclusive (ServerState.init l) ops = true) :
    (active_ports (reg_run (ServerState.init l) ops)).Nodup ∧
    ∀ (port : Int) (env : ListenEnv) (th : HANDLE),
      has_port (reg_run (ServerState.init l) ops) port = true →
      (make_listener "0.0.0.0".toList port env).1 = INVALID_SOCKET →
      reg_step (reg_run (ServerState.init l) ops) (RegOp.start port env th) =
        reg_run (ServerState.init l) ops ∧
      (active_ports
        (reg_step (reg_run (ServerState.init l) ops) (RegOp.start port env th))).count port
        = 1 := by
  obtain ⟨hwf, hd⟩ :=
    reg_run_preserves ops _ (registry_wf_init l) (ports_distinct_init l) hx
  have hnd := active_ports_nodup _ hwf hd
  refine ⟨hnd, fun port env th hp hml => ?_⟩
  have hsame : reg_step (reg_run (ServerState.init l) ops) (RegOp.start port env th) =
      reg_run (ServerState.init l) ops := by
    simp only [reg_step, start_tunnel]
    split
    · rfl
    · simp [hml]
  rw [hsame]
  exact ⟨rfl, List.count_eq_one_of_mem hnd (has_port_mem _ port hwf hp)⟩

theorem C5_one_tunnel_per_port_witness :
    bind_exclusive (ServerState.init 3)
        [RegOp.start 9000 ⟨0, 4, 0, 0⟩ 1, RegOp.start 9001 ⟨0, 6, 0, 0⟩ 2,
         RegOp.start 9000 ⟨0, 7, -1, 0⟩ 0, RegOp.stop 9000,
         RegOp.start 9000 ⟨0, 8, 0, 0⟩ 5] = true ∧
    (active_ports (reg_run (ServerState.init 3)
        [RegOp.start 9000 ⟨0, 4, 0, 0⟩ 1, RegOp.start 9001 ⟨0, 6, 0, 0⟩ 2,
         RegOp.start 9000 ⟨0, 7, -1, 0⟩ 0, RegOp.stop 9000,
         RegOp.start 9000 ⟨0, 8, 0, 0⟩ 5])).Nodup ∧
    (active_ports
      (reg_step (reg_run (ServerState.init 3)
        [RegOp.start 9000 ⟨0, 4, 0, 0⟩ 1, RegOp.start 9001 ⟨0, 6, 0, 0⟩ 2,
         RegOp.start 9000 ⟨0, 7, -1, 0⟩ 0, RegOp.stop 9000,
         RegOp.start 9000 ⟨0, 8, 0, 0⟩ 5])
        (RegOp.start 9001 ⟨0, 9, -1, 0⟩ 0))).count 9001 = 1 :=
  ⟨by decide,
   (C5_one_tunnel_per_port 3 _ (by decide)).1,
   ((C5_one_tunnel_per_port 3
      [RegOp.start 9000 ⟨0, 4, 0, 0⟩ 1, RegOp.start 9001 ⟨0, 6, 0, 0⟩ 2,
       RegOp.start 9000 ⟨0, 7, -1, 0⟩ 0, RegOp.stop 9000,
       RegOp.start 9000 ⟨0, 8, 0, 0⟩ 5] (by decide)).2
      9001 ⟨0, 9, -1, 0⟩ 0 (by decide) (by decide)).2⟩

theorem take_succ_set {α : Type} (l : List α) (n : Nat) (a : α) (h : n < l.length) :
    (l.set n a).take (n + 1) = l.take n ++ [a] := by
  induction l generalizing n with
  | nil => simp at h
  | cons x xs ih =>
    cases n with
    | zero => simp
    | succ n =>
      have h2 : n < xs.length := by simpa using h
      simp [ih n h2]

theorem drop_succ_set {α : Type} (l : List α) (n : Nat) (a : α) :
    (l.set n a).drop (n + 1) = l.drop (n + 1) := by
  induction l generalizing n with
  | nil => simp
  | cons x xs ih =>
    cases n with
    | zero => simp
    | succ n => simp [ih n]

theorem make_listener_effects (addr : List Char) (port : Int) (env : ListenEnv)
    (slot : Nat) : Effect.beginthread_accept slot ∉ (make_listener addr port env).2 := by
  unfold make_listener
  split
  · simp
  · split
    · simp
    · split
      · simp
      · split <;> simp

theorem make_listener_ok_effects (addr : List Char) (port : Int) (env : ListenEnv)
    (h : (make_listener addr port env).1 ≠ INVALID_SOCKET) :
    (make_listener addr port env).2 = [] := by
  unfold make_listener at h ⊢
  split
  · rename_i h1; simp [h1] at h
  · rename_i h1
    split
    · rename_i h2; simp [h1, h2] at h
    · rename_i h2
      split
      · rename_i h3; simp [h1, h2, h3] at h
      · rename_i h3
        split
        · rename_i h4; simp [h1, h2, h3, h4] at h
        · rfl

/-- C6: `start_tunnel` is without effect on failure.  If the registry is full
(`tunnel_count >= 64`) or `make_listener("0.0.0.0", port)` returns
`INVALID_SOCKET`, the whole server state (so `tunnels[]`, `tunnel_count`, the
pending table and `ctrl_sock`) is the one from before and no accept thread
is started.  Otherwise exactly the entry `(port, listener, thread)` is
appended behind the existing entries, `tunnel_count` grows by one, one
accept thread is started for the new slot, and nothing else changes. -/
theorem C6_start_tunnel_effect (st : ServerState) (port : Int) (env : ListenEnv)
    (th : HANDLE) :
    ((st.tunnel_count ≥ MAX_TUNNELS ∨
        (make_listener "0.0.0.0".toList port env).1 = INVALID_SOCKET) →
      (start_tunnel st port env th).1 = st ∧
      ∀ slot, Effect.beginthread_accept slot ∉ (start_tunnel st port env th).2) ∧
    (st.tunnel_count < MAX_TUNNELS →
      (make_listener "0.0.0.0".toList port env).1 ≠ INVALID_SOCKET →
      st.tunnels.length = MAX_TUNNELS →
      (start_tunnel st port env th).1.tunnel_count = st.tunnel_count + 1 ∧
      (start_tunnel st port env th).1.tunnels.take (st.tunnel_count + 1) =
        st.tunnels.take st.tunnel_count ++
          [⟨port, (make_listener "0.0.0.0".toList port env).1, th⟩] ∧
      (start_tunnel st port env th).1.tunnels.drop (st.tunnel_count + 1) =
        st.tunnels.drop (st.tunnel_count + 1) ∧
      (start_tunnel st port env th).1.pending = st.pending ∧
      (start_tunnel st port env th).1.ctrl_sock = st.ctrl_sock ∧
      (start_tunnel st port env th).1.next_sessionid = st.next_sessionid ∧
      (start_tunnel st port env th).1.listener = st.listener ∧
      (start_tunnel st port env th).2 = [Effect.beginthread_accept st.tunnel_count]) := by
  constructor
  · intro h
    unfold start_tunnel
    split
    · simp
    · rename_i hc
      have hml : (make_listener "0.0.0.0".toList port env).1 = INVALID_SOCKET := by
        rcases h with h | h
        · exact absurd h hc
        · exact h
      simp only [hml, if_true, true_and]
      exact fun slot => make_listener_effects _ _ _ slot
  · intro hc hml hlen
    have hc2 : ¬ st.tunnel_count ≥ MAX_TUNNELS := by omega
    have hlt : st.tunnel_count < st.tunnels.length := by omega
    simp only [start_tunnel, hc2, hml, if_false, make_listener_ok_effects _ _ _ hml,
      List.nil_append, true_and, and_true]
    refine ⟨?_, ?_⟩
    · exact take_succ_set _ _ _ hlt
    · exact drop_succ_set _ _ _

theorem C6_start_tunnel_effect_witness :
    (start_tunnel (ServerState.init 3) 9000 ⟨0, 4, -1, 0⟩ 1).1 = ServerState.init 3 ∧
    (start_tunnel { ServerState.init 3 with tunnel_count := 64 } 9000 ⟨0, 4, 0, 0⟩ 1).1 =
      { ServerState.init 3 with tunnel_count := 64 } ∧
    (start_tunnel (ServerState.init 3) 9000 ⟨0, 4, 0, 0⟩ 1).1.tunnels.take (0 + 1) =
      [] ++ [⟨9000, 4, 1⟩] :=
  ⟨((C6_start_tunnel_effect (ServerState.init 3) 9000 ⟨0, 4, -1, 0⟩ 1).1
      (Or.inr (by decide))).1,
   ((C6_start_tunnel_effect { ServerState.init 3 with tunnel_count := 64 } 9000
      ⟨0, 4, 0, 0⟩ 1).1 (Or.inl (by decide))).1,
   ((C6_start_tunnel_effect (ServerState.init 3) 9000 ⟨0, 4, 0, 0⟩ 1).2
      (by decide) (by decide) (by decide)).2.1⟩

/-! ## The current controller -/

theorem start_tunnel_ctrl_sock (st : ServerState) (port : Int) (env : ListenEnv)
    (th : HANDLE) : (start_tunnel st port env th).1.ctrl_sock = st.ctrl_sock := by
  unfold start_tunnel
  split
  · rfl
  · dsimp only
    split <;> rfl

theorem stop_tunnel_ctrl_sock (st : ServerState) (port : Int) :
    (stop_tunnel st port).1.ctrl_sock = st.ctrl_sock := by
  unfold stop_tunnel
  split <;> rfl

theorem control_command_ctrl_sock (st : ServerState) (line : List Char)
    (env : ListenEnv) (th : HANDLE) :
    (control_command st line env th).1.ctrl_sock = st.ctrl_sock := by
  unfold control_command
  split
  · dsimp only
    split
    · exact start_tunnel_ctrl_sock _ _ _ _
    · rfl
  · split
    · dsimp only
      split
      · exact stop_tunnel_ctrl_sock _ _
      · rfl
    · rfl

theorem handle_control_line_ctrl_sock (st : ServerState) (input : List Char)
    (fin : Int) (env : ListenEnv) (th : HANDLE) (r : ServerState × List Effect)
    (h : handle_control_line st input fin env th = some r) :
    r.1.ctrl_sock = st.ctrl_sock := by
  unfold handle_control_line at h
  dsimp only at h
  split at h
  · cases h
  · split at h
    · cases h; rfl
    · cases h; exact control_command_ctrl_sock _ _ _ _

theorem main_iter_ctrl_sock (st : ServerState) (s : SOCKET) (input : List Char)
    (fin : Int) (env : ListenEnv) (th : HANDLE) :
    (main_iter st s input fin env th).1.ctrl_sock =
      match installs (Event.main_accept s input fin env th) with
      | some s1 => s1
      | none => st.ctrl_sock := by
  unfold main_iter installs
  by_cases h1 : s = INVALID_SOCKET
  · simp [h1]
  · by_cases h2 : (recv_line input fin 256).1 ≤ 0
    · simp [h1, h2]
    · by_cases h3 : strncmp_eq (trim_crlf (recv_line input fin 256).2.1) "DATA ".toList 5 = true
      · simp only [h1, h2, h3, if_true, if_false]
        split <;> rfl
      · simp only [h1, h2, h3, if_false]
        exact control_command_ctrl_sock _ _ _ _

theorem step_ctrl_sock (st : ServerState) (e : Event) :
    (step st e).1.ctrl_sock =
      match installs e with
      | some s1 => s1
      | none =>
        match e with
        | Event.control_end ctrl => if st.ctrl_sock = ctrl then 0 else st.ctrl_sock
        | _ => st.ctrl_sock := by
  cases e with
  | tunnel_accept slot ext mallocOk =>
    by_cases h : ext = INVALID_SOCKET
    · simp [step, tunnel_accept_iter, installs, h]
    · cases mallocOk <;>
        simp [step, tunnel_accept_iter, accept_enqueue, add_pending, installs, h]
  | main_accept s input fin env th =>
    rw [step, main_iter_ctrl_sock]
  | control_line input fin env th =>
    simp only [step, installs]
    cases hh : handle_control_line st input fin env th with
    | none => rfl
    | some r => exact handle_control_line_ctrl_sock _ _ _ _ _ r hh
  | control_end ctrl =>
    simp only [step, handle_control_end, installs]
    split <;> rfl

theorem run_ctrl_sock (evs : List Event) (st : ServerState) (prev : Option SOCKET)
    (h : st.ctrl_sock = 0 ∨ some st.ctrl_sock = prev) :
    (run st evs).ctrl_sock = 0 ∨ some (run st evs).ctrl_sock = last_installed prev evs := by
  induction evs generalizing st prev with
  | nil => exact h
  | cons e es ih =>
    have hs := step_ctrl_sock st e
    simp only [run, last_installed]
    cases hi : installs e with
    | some s1 =>
      rw [hi] at hs
      exact ih _ _ (Or.inr (by rw [hs]))
    | none =>
      rw [hi] at hs
      apply ih
      cases e with
      | control_end ctrl =>
        simp only at hs
        rw [hs]
        split
        · exact Or.inl rfl
        · exact h
      | tunnel_accept slot ext mallocOk => simp only at hs; rw [hs]; exact h
      | main_accept s input fin env th => simp only at hs; rw [hs]; exact h
      | control_line input fin env th => simp only at hs; rw [hs]; exact h

/-- C7: the server has at most one active controller, the latest installed.
(1) A step of `main` for an accepted socket `s` whose first line does not
start with `DATA ` sets `ctrl_sock` to `s`, and when the previous `ctrl_sock`
was active (neither 0 nor `INVALID_SOCKET`) the first thing it does is to
close it.  (2) A step whose first line starts with `DATA ` leaves `ctrl_sock`
as it is.  (3) The end of `handle_control_socket(st, ctrl)` sets `ctrl_sock`
to 0 if it is `ctrl` and leaves it alone otherwise.  (4) In every run of the
server from its initial state (steps of `main`, of tunnel acceptors and of
controller readers, in any order) `ctrl_sock` is 0 or the socket installed
last. -/
theorem C7_single_controller :
    (∀ (st : ServerState) (s : SOCKET) (input : List Char) (fin : Int) (env : ListenEnv)
        (th : HANDLE),
      s ≠ INVALID_SOCKET → 0 < (recv_line input fin 256).1 →
      strncmp_eq (trim_crlf (recv_line input fin 256).2.1) "DATA ".toList 5 = false →
      (main_iter st s input fin env th).1.ctrl_sock = s ∧
      (st.ctrl_sock ≠ 0 → st.ctrl_sock ≠ INVALID_SOCKET →
        ∃ rest, (main_iter st s input fin env th).2 =
          Effect.closesocket st.ctrl_sock :: rest)) ∧
    (∀ (st : ServerState) (s : SOCKET) (input : List Char) (fin : Int) (env : ListenEnv)
        (th : HANDLE),
      strncmp_eq (trim_crlf (recv_line input fin 256).2.1) "DATA ".toList 5 = true →
      (main_iter st s input fin env th).1.ctrl_sock = st.ctrl_sock) ∧
    (∀ (st : ServerState) (ctrl : SOCKET),
      (handle_control_end st ctrl).ctrl_sock =
        if st.ctrl_sock = ctrl then 0 else st.ctrl_sock) ∧
    (∀ (l : SOCKET) (evs : List Event),
      (run (ServerState.init l) evs).ctrl_sock = 0 ∨
      some (run (ServerState.init l) evs).ctrl_sock = last_installed none evs) := by
  refine ⟨?_, ?_, ?_, ?_⟩
  · intro st s input fin env th hs hr hd
    have hr2 : ¬ (recv_line input fin 256).1 ≤ 0 := by omega
    constructor
    · rw [main_iter_ctrl_sock]
      simp only [installs, hs, hr2, hd, if_false, Bool.false_eq_true]
    · intro h0 h1
      refine ⟨(control_command { st with ctrl_sock := s }
        (trim_crlf (recv_line input fin 256).2.1) env th).2 ++
          [Effect.beginthread_control], ?_⟩
      simp only [main_iter, hs, hr2, hd, h0, h1, if_false, Bool.false_eq_true, ne_eq,
        not_false_eq_true, and_self, if_true, List.append_assoc, List.singleton_append]
      rfl
  · intro st s input fin env th hd
    rw [main_iter_ctrl_sock]
    simp only [installs, hd, if_true]
    by_cases h1 : s = INVALID_SOCKET
    · simp only [h1, if_true]
    · by_cases h2 : (recv_line input fin 256).1 ≤ 0
      · simp only [h1, h2, if_true, if_false]
      · simp only [h1, h2, if_false]
  · intro st ctrl
    unfold handle_control_end
    split <;> rfl
  · intro l evs
    exact run_ctrl_sock evs (ServerState.init l) none (Or.inl rfl)

theorem C7_single_controller_witness :
    (main_iter { ServerState.init 3 with ctrl_sock := 5 } 6 "LISTEN 9000\n".toList 0
        ⟨0, 4, 0, 0⟩ 1).1.ctrl_sock = 6 ∧
    (∃ rest,
      (main_iter { ServerState.init 3 with ctrl_sock := 5 } 6 "LISTEN 9000\n".toList 0
        ⟨0, 4, 0, 0⟩ 1).2 = Effect.closesocket 5 :: rest) ∧
    (main_iter { ServerState.init 3 with ctrl_sock := 5 } 6 "DATA 1\n".toList 0
        ⟨0, 4, 0, 0⟩ 1).1.ctrl_sock = 5 :=
  ⟨(C7_single_controller.1 { ServerState.init 3 with ctrl_sock := 5 } 6
      "LISTEN 9000\n".toList 0 ⟨0, 4, 0, 0⟩ 1 (by decide) (by decide) (by decide)).1,
   (C7_single_controller.1 { ServerState.init 3 with ctrl_sock := 5 } 6
      "LISTEN 9000\n".toList 0 ⟨0, 4, 0, 0⟩ 1 (by decide) (by decide) (by decide)).2
      (by decide) (by decide),
   C7_single_controller.2.1 { ServerState.init 3 with ctrl_sock := 5 } 6
      "DATA 1\n".toList 0 ⟨0, 4, 0, 0⟩ 1 (by decide)⟩

/-! ## Relay -/

theorem sink_accepted_append (send : Nat → Int) (xs ys : List (List Byte)) :
    ∀ k, sink_accepted send (xs ++ ys) k =
      sink_accepted send xs k ++ sink_accepted send ys (k + xs.length) := by
  induction xs with
  | nil => intro k; simp [sink_accepted]
  | cons x xs ih =>
    intro k
    have hk : k + 1 + xs.length = k + (xs.length + 1) := by omega
    simp only [List.cons_append, sink_accepted, List.append_eq, ih (k + 1),
      List.append_assoc, List.length_cons, hk]

theorem sink_accepted_snoc (send : Nat → Int) (cs : List (List Byte)) (c : List Byte) :
    sink_accepted send (cs ++ [c]) 0 =
      sink_accepted send cs 0 ++ c.take (send cs.length).toNat := by
  rw [sink_accepted_append]
  simp [sink_accepted]

theorem trace_ok_snoc (send : Nat → Int) (stream : List Byte) (calls : List (List Byte))
    (c : List Byte) (h : trace_ok send stream calls) (hc : call_ok send stream calls c) :
    trace_ok send stream (calls ++ [c]) := by
  intro j hj
  by_cases hlt : j < calls.length
  · rw [List.take_append_of_le_length (by omega), List.getElem_append_left hlt]
    exact h j hlt
  · have hje : j = calls.length := by
      simp only [List.length_append, List.length_singleton] at hj
      omega
    subst hje
    simpa using hc

theorem call_ok_chunk (send : Nat → Int) (stream pre buf post : List Byte)
    (hs : stream = pre ++ buf ++ post) (hbuf : buf.length ≤ RELAY_BUF_SZ)
    (calls : List (List Byte)) (s : Nat) (hlt : s < buf.length)
    (hacc : sink_accepted send calls 0 = pre ++ buf.take s) :
    call_ok send stream calls (buf.drop s) := by
  refine ⟨?_, ?_, ?_⟩
  · intro h
    have := congrArg List.length h
    simp only [List.length_drop, List.length_nil] at this
    omega
  · simp only [List.length_drop]; omega
  · have hlen : (sink_accepted send calls 0).length = pre.length + s := by
      rw [hacc, List.length_append, List.length_take]
      omega
    rw [hlen, hs, List.append_assoc, List.drop_append,
      List.drop_append_of_le_length (by omega)]
    exact ⟨post, rfl⟩

theorem send_loop_spec (send : Nat → Int) (stream pre buf post : List Byte)
    (hs : stream = pre ++ buf ++ post) (hbuf : buf.length ≤ RELAY_BUF_SZ) (fuel : Nat) :
    ∀ (sent : Int) (calls : List (List Byte)), 0 ≤ sent →
      ((buf.length : Int) - sent).toNat ≤ fuel →
      sink_accepted send calls 0 = pre ++ buf.take sent.toNat →
      trace_ok send stream calls →
      (∀ j, j < calls.length → 0 < send j) →
      (send_loop send buf buf.length fuel sent calls).status ≠ SendStatus.out_of_fuel ∧
      trace_ok send stream (send_loop send buf buf.length fuel sent calls).calls ∧
      ((send_loop send buf buf.length fuel sent calls).status = SendStatus.complete →
        sink_accepted send (send_loop send buf buf.length fuel sent calls).calls 0 =
          pre ++ buf ∧
        ∀ j, j < (send_loop send buf buf.length fuel sent calls).calls.length →
          0 < send j) ∧
      ((send_loop send buf buf.length fuel sent calls).status = SendStatus.failed →
        0 < (send_loop send buf buf.length fuel sent calls).calls.length ∧
        send ((send_loop send buf buf.length fuel sent calls).calls.length - 1) ≤ 0 ∧
        (∀ j, j + 1 < (send_loop send buf buf.length fuel sent calls).calls.length →
          0 < send j) ∧
        ∃ s, sink_accepted send (send_loop send buf buf.length fuel sent calls).calls 0 =
          pre ++ buf.take s) := by
  induction fuel with
  | zero =>
    intro sent calls h0 hf hacc htr hpos
    have hge : ¬ sent < (buf.length : Int) := by omega
    have htake : buf.take sent.toNat = buf := List.take_of_length_le (by omega)
    simp only [send_loop, hge, if_false]
    refine ⟨by decide, htr, fun _ => ⟨by rw [hacc, htake], hpos⟩, ?_⟩
    intro h; cases h
  | succ fuel ih =>
    intro sent calls h0 hf hacc htr hpos
    by_cases hlt : sent < (buf.length : Int)
    · have hoff : ((buf.drop sent.toNat).take ((buf.length : Int) - sent).toNat) =
          buf.drop sent.toNat := by
        apply List.take_of_length_le
        simp only [List.length_drop]
        omega
      have hcall : call_ok send stream calls (buf.drop sent.toNat) :=
        call_ok_chunk send stream pre buf post hs hbuf calls sent.toNat (by omega) hacc
      have htr2 := trace_ok_snoc send stream calls _ htr hcall
      by_cases hw : send calls.length ≤ 0
      · simp only [send_loop, hlt, hw, if_true, hoff]
        refine ⟨by decide, htr2, ?_, ?_⟩
        · intro h; cases h
        · intro _
          refine ⟨by simp, by simpa using hw, ?_, ⟨sent.toNat, ?_⟩⟩
          · intro j hj
            simp only [List.length_append, List.length_singleton] at hj
            exact hpos j (by omega)
          · have hz : (send calls.length).toNat = 0 := by omega
            rw [sink_accepted_snoc, hz, List.take_zero, List.append_nil, hacc]
      · have hnext : (sent + send calls.length).toNat =
            sent.toNat + (send calls.length).toNat := by omega
        have hacc2 : sink_accepted send (calls ++ [buf.drop sent.toNat]) 0 =
            pre ++ buf.take (sent + send calls.length).toNat := by
          rw [sink_accepted_snoc, hacc, hnext, List.take_add, List.append_assoc]
        have hpos2 : ∀ j, j < (calls ++ [buf.drop sent.toNat]).length → 0 < send j := by
          intro j hj
          simp only [List.length_append, List.length_singleton] at hj
          by_cases hjc : j = calls.length
          · subst hjc; omega
          · exact hpos j (by omega)
        have := ih (sent + send calls.length) (calls ++ [buf.drop sent.toNat])
          (by omega) (by omega) hacc2 htr2 hpos2
        simp only [send_loop, hlt, hw, if_true, if_false, hoff]
        exact this
    · have htake : buf.take sent.toNat = buf := List.take_of_length_le (by omega)
      simp only [send_loop, hlt, if_false]
      refine ⟨by decide, htr, fun _ => ⟨by rw [hacc, htake], hpos⟩, ?_⟩
      intro h; cases h

theorem proxy_loop_spec (send : Nat → Int) (stream : List Byte)
    (chunks : List (List Byte))
    (hch : ∀ c ∈ chunks, 1 ≤ c.length ∧ c.length ≤ RELAY_BUF_SZ) :
    ∀ (pre : List Byte) (calls : List (List Byte)),
      stream = pre ++ chunks.flatten →
      sink_accepted send calls 0 = pre →
      trace_ok send stream calls →
      (∀ j, j < calls.length → 0 < send j) →
      (proxy_loop send chunks calls).status ≠ SendStatus.out_of_fuel ∧
      trace_ok send stream (proxy_loop send chunks calls).calls ∧
      ((proxy_loop send chunks calls).status = SendStatus.complete →
        sink_accepted send (proxy_loop send chunks calls).calls 0 = stream ∧
        ∀ j, j < (proxy_loop send chunks calls).calls.length → 0 < send j) ∧
      ((proxy_loop send chunks calls).status = SendStatus.failed →
        0 < (proxy_loop send chunks calls).calls.length ∧
        send ((proxy_loop send chunks calls).calls.length - 1) ≤ 0 ∧
        (∀ j, j + 1 < (proxy_loop send chunks calls).calls.length → 0 < send j) ∧
        sink_accepted send (proxy_loop send chunks calls).calls 0 <+: stream) := by
  induction chunks with
  | nil =>
    intro pre calls hs hacc htr hpos
    simp only [List.flatten_nil, List.append_nil] at hs
    simp only [proxy_loop]
    refine ⟨by decide, htr, fun _ => ⟨by rw [hacc, hs], hpos⟩, ?_⟩
    intro h; cases h
  | cons c rest ih =>
    intro pre calls hs hacc htr hpos
    obtain ⟨hc1, hc2⟩ := hch c (List.mem_cons_self _ _)
    have hr : ¬ ((c.length : Int) ≤ 0) := by omega
    have hs2 : stream = pre ++ c ++ rest.flatten := by
      rw [hs, List.flatten_cons, List.append_assoc]
    obtain ⟨s1, s2, s3, s4⟩ :=
      send_loop_spec send stream pre c rest.flatten hs2 hc2 (c.length : Int).toNat 0 calls
        (le_refl _) (by omega) (by simpa using hacc) htr hpos
    simp only [proxy_loop, hr, if_false]
    by_cases hst : (send_loop send c c.length (c.length : Int).toNat 0 calls).status =
        SendStatus.complete
    · obtain ⟨o1, o2⟩ := s3 hst
      simp only [hst, if_true]
      exact ih (fun x hx => hch x (List.mem_cons_of_mem _ hx)) (pre ++ c) _ hs2 o1 s2 o2
    · simp only [hst, if_false]
      refine ⟨s1, s2, fun h => False.elim h, fun h => ?_⟩
      obtain ⟨p1, p2, p3, ⟨s, p4⟩⟩ := s4 h
      refine ⟨p1, p2, p3, ?_⟩
      rw [p4, hs2, List.append_assoc]
      exact ⟨c.drop s ++ rest.flatten, by
        rw [List.append_assoc, ← List.append_assoc (c.take s), List.take_append_drop]⟩

theorem sink_accepted_split (send : Nat → Int) (calls : List (List Byte)) (j : Nat)
    (hj : j < calls.length) :
    sink_accepted send calls 0 =
      sink_accepted send (calls.take j) 0 ++ (calls[j].take (send j).toNat ++
        sink_accepted send (calls.drop (j + 1)) (j + 1)) := by
  have h1 : calls = calls.take j ++ calls.drop j := (List.take_append_drop j calls).symm
  have h2 : (calls.take j).length = j := by
    rw [List.length_take]; omega
  conv_lhs => rw [h1]
  rw [sink_accepted_append, h2, List.drop_eq_getElem_cons hj]
  simp [sink_accepted]

/-- C8: one relay direction is byte-exact.  `chunks` are the blocks that the
successive `recv` calls deliver on the source (each of 1 to 4096 bytes), so
their concatenation is the byte stream to be relayed; `send k` is what the
`k`-th `send` call on the sink returns; the sink's accepted bytes are computed
by `sink_accepted` from the calls the function makes.  Whatever `send`
returns, when the direction ends (it always does, the model's iteration bound
is never hit):
(1) every `send` call offers at least one and at most 4096 bytes, and these
are the bytes of the stream that follow what the sink has accepted so far
(nothing is skipped, repeated or reordered);
(2) every call but the last returned a value `> 0`;
(3) the bytes accepted by the sink are an initial segment of the stream;
(4) they are the whole stream if none of the calls made returned `<= 0`;
(5) the direction ends either through `break` after `recv` returned `<= 0`,
with the whole stream accepted, or through `goto done` right after a `send`
call that returned `<= 0`;
(6) a short write (`0 < w <` bytes offered) is never the last call: another
call follows, which by (1) offers the bytes right behind the `w` accepted;
(7) at the end both sockets are shut down and closed. -/
theorem C8_relay_byte_exact (send : Nat → Int) (chunks : List (List Byte))
    (hch : ∀ c ∈ chunks, 1 ≤ c.length ∧ c.length ≤ RELAY_BUF_SZ) (a b : SOCKET) :
    (proxy_worker a b chunks send).1.status ≠ SendStatus.out_of_fuel ∧
    (∀ j (hj : j < (proxy_worker a b chunks send).1.calls.length),
      (proxy_worker a b chunks send).1.calls[j] ≠ [] ∧
      (proxy_worker a b chunks send).1.calls[j].length ≤ RELAY_BUF_SZ ∧
      (proxy_worker a b chunks send).1.calls[j] <+:
        chunks.flatten.drop
          (sink_accepted send ((proxy_worker a b chunks send).1.calls.take j) 0).length) ∧
    (∀ j, j + 1 < (proxy_worker a b chunks send).1.calls.length → 0 < send j) ∧
    sink_accepted send (proxy_worker a b chunks send).1.calls 0 <+: chunks.flatten ∧
    ((∀ j, j < (proxy_worker a b chunks send).1.calls.length → 0 < send j) →
      sink_accepted send (proxy_worker a b chunks send).1.calls 0 = chunks.flatten) ∧
    (((proxy_worker a b chunks send).1.status = SendStatus.complete ∧
        sink_accepted send (proxy_worker a b chunks send).1.calls 0 = chunks.flatten) ∨
      ((proxy_worker a b chunks send).1.status = SendStatus.failed ∧
        0 < (proxy_worker a b chunks send).1.calls.length ∧
        send ((proxy_worker a b chunks send).1.calls.length - 1) ≤ 0)) ∧
    (∀ j (hj : j < (proxy_worker a b chunks send).1.calls.length),
      0 < send j →
      (send j).toNat < (proxy_worker a b chunks send).1.calls[j].length →
      j + 1 < (proxy_worker a b chunks send).1.calls.length) ∧
    (proxy_worker a b chunks send).2 =
      [Effect.shutdown a, Effect.shutdown b, Effect.closesocket a, Effect.closesocket b] := by
  obtain ⟨s1, s2, s3, s4⟩ :=
    proxy_loop_spec send chunks.flatten chunks hch [] [] (by simp) rfl
      (fun j hj => absurd hj (by simp)) (fun j hj => absurd hj (by simp))
  show (proxy_loop send chunks []).status ≠ SendStatus.out_of_fuel ∧
    (∀ j (hj : j < (proxy_loop send chunks []).calls.length),
      (proxy_loop send chunks []).calls[j] ≠ [] ∧
      (proxy_loop send chunks []).calls[j].length ≤ RELAY_BUF_SZ ∧
      (proxy_loop send chunks []).calls[j] <+:
        chunks.flatten.drop
          (sink_accepted send ((proxy_loop send chunks []).calls.take j) 0).length) ∧
    (∀ j, j + 1 < (proxy_loop send chunks []).calls.length → 0 < send j) ∧
    sink_accepted send (proxy_loop send chunks []).calls 0 <+: chunks.flatten ∧
    ((∀ j, j < (proxy_loop send chunks []).calls.length → 0 < send j) →
      sink_accepted send (proxy_loop send chunks []).calls 0 = chunks.flatten) ∧
    (((proxy_loop send chunks []).status = SendStatus.complete ∧
        sink_accepted send (proxy_loop send chunks []).calls 0 = chunks.flatten) ∨
      ((proxy_loop send chunks []).status = SendStatus.failed ∧
        0 < (proxy_loop send chunks []).calls.length ∧
        send ((proxy_loop send chunks []).calls.length - 1) ≤ 0)) ∧
    (∀ j (hj : j < (proxy_loop send chunks []).calls.length),
      0 < send j →
      (send j).toNat < (proxy_loop send chunks []).calls[j].length →
      j + 1 < (proxy_loop send chunks []).calls.length) ∧
    [Effect.shutdown a, Effect.shutdown b, Effect.closesocket a, Effect.closesocket b] =
      [Effect.shutdown a, Effect.shutdown b, Effect.closesocket a, Effect.closesocket b]
  generalize proxy_loop send chunks [] = R at s1 s2 s3 s4
  have hcases : R.status = SendStatus.complete ∨ R.status = SendStatus.failed := by
    cases hs : R.status with
    | complete => exact Or.inl rfl
    | failed => exact Or.inr rfl
    | out_of_fuel => exact absurd hs s1
  refine ⟨s1, fun j hj => s2 j hj, ?_, ?_, ?_, ?_, ?_, rfl⟩
  · intro j hj
    rcases hcases with h | h
    · exact (s3 h).2 j (by omega)
    · exact (s4 h).2.2.1 j hj
  · rcases hcases with h | h
    · exact ⟨[], by rw [List.append_nil, (s3 h).1]⟩
    · exact (s4 h).2.2.2
  · intro hall
    rcases hcases with h | h
    · exact (s3 h).1
    · obtain ⟨p1, p2, _, _⟩ := s4 h
      exact absurd (hall (R.calls.length - 1) (by omega)) (not_lt.mpr p2)
  · rcases hcases with h | h
    · exact Or.inl ⟨h, (s3 h).1⟩
    · obtain ⟨p1, p2, _, _⟩ := s4 h
      exact Or.inr ⟨h, p1, p2⟩
  · intro j hj hpos hshort
    by_contra hlast
    have hje : j = R.calls.length - 1 := by omega
    rcases hcases with h | h
    · have hall := (s3 h).1
      obtain ⟨_, _, hpre⟩ := s2 j hj
      have hlen := hpre.length_le
      have hsplit := sink_accepted_split send R.calls j hj
      have hdrop : R.calls.drop (j + 1) = [] := List.drop_eq_nil_of_le (by omega)
      rw [hdrop] at hsplit
      simp only [sink_accepted, List.append_nil] at hsplit
      rw [hall] at hsplit
      have hl2 := congrArg List.length hsplit
      simp only [List.length_append, List.length_take, List.length_drop] at hl2 hlen
      omega
    · obtain ⟨_, p2, _, _⟩ := s4 h
      rw [← hje] at p2
      exact absurd hpos (not_lt.mpr p2)

theorem C8_relay_byte_exact_witness :
    sink_accepted (fun k => if k = 0 then 2 else 5)
        (proxy_worker 1 2 [[10, 20, 30], [40, 50]] (fun k => if k = 0 then 2 else 5)).1.calls 0 =
      [[10, 20, 30], [40, 50]].flatten :=
  (C8_relay_byte_exact (fun k => if k = 0 then 2 else 5) [[10, 20, 30], [40, 50]]
    (by decide) 1 2).2.2.2.2.1 (by decide)

open Client

/-! ## Client mapping registry -/

theorem find_index_none (cs : ClientState) (p : Int) (n i : Nat)
    (h : ∀ j, i ≤ j → j < i + n → (cs.mapping j).server_port ≠ p) :
    find_index cs p i n = none := by
  induction n generalizing i with
  | zero => rfl
  | succ n ih =>
    rw [find_index, if_neg (h i (le_refl _) (by omega))]
    exact ih (i + 1) (fun j h1 h2 => h j (by omega) (by omega))

theorem find_index_some (cs : ClientState) (p : Int) (n i k : Nat)
    (h : ∀ j, i ≤ j → j < k → (cs.mapping j).server_port ≠ p)
    (hk : (cs.mapping k).server_port = p) (h1 : i ≤ k) (h2 : k < i + n) :
    find_index cs p i n = some k := by
  induction n generalizing i with
  | zero => omega
  | succ n ih =>
    rw [find_index]
    by_cases hik : i = k
    · subst hik; rw [if_pos hk]
    · rw [if_neg (h i (le_refl _) (by omega))]
      exact ih (i + 1) (fun j h3 h4 => h j (by omega) h4) (by omega) (by omega)

theorem take_set_self {α : Type} (l : List α) (n : Nat) (a : α) :
    (l.set n a).take n = l.take n := by
  induction l generalizing n with
  | nil => simp
  | cons x xs ih =>
    cases n with
    | zero => simp
    | succ n => simp [ih n]

theorem mapping_set (cs : ClientState) (i k c : Nat) (t : TunnelMapping)
    (h : i < cs.mappings.length) :
    ({ mappings := cs.mappings.set i t, mapping_count := c } : ClientState).mapping k =
      if k = i then t else cs.mapping k := by
  simp only [ClientState.mapping, List.getD_eq_getElem?_getD, List.getElem?_set]
  by_cases hk : k = i
  · subst hk; simp [h]
  · have : ¬ i = k := fun e => hk e.symm
    simp [hk, this]

/-- C10 (amended): when the registry (an array of 128 slots) has no entry for
the server port `p`, `add_mapping(p, a, q)` followed by `remove_mapping(p)`
restores the registry: `mapping_count` and the sequence of the first
`mapping_count` entries are those from before the add.  (This includes the
full registry, on which both calls change nothing.) -/
theorem C10_add_remove_restores (cs : ClientState) (p : Int) (a : List Char) (q : Int)
    (hlen : cs.mappings.length = Client.MAX_TUNNELS)
    (hno : ∀ i, i < cs.mapping_count → (cs.mapping i).server_port ≠ p) :
    (remove_mapping (add_mapping cs p a q) p).mapping_count = cs.mapping_count ∧
    (remove_mapping (add_mapping cs p a q) p).entries = cs.entries := by
  unfold add_mapping
  split
  · have hn : find_index cs p 0 cs.mapping_count = none :=
      find_index_none cs p _ 0 (fun j _ h2 => hno j (by omega))
    simp only [remove_mapping, hn, and_self]
  · rename_i hc
    have hlt : cs.mapping_count < cs.mappings.length := by omega
    have hf : find_index
        { mappings := cs.mappings.set cs.mapping_count ⟨p, strncpy_trunc a, q⟩,
          mapping_count := cs.mapping_count + 1 } p 0 (cs.mapping_count + 1) =
        some cs.mapping_count := by
      apply find_index_some
      · intro j _ hj
        rw [mapping_set cs _ j _ _ hlt, if_neg (by omega)]
        exact hno j hj
      · rw [mapping_set cs _ _ _ _ hlt, if_pos rfl]
      · exact Nat.zero_le _
      · omega
    simp only [remove_mapping, hf, Nat.add_sub_cancel, Nat.sub_self, shift_down,
      ClientState.entries, take_set_self, and_self]

theorem C10_add_remove_restores_witness :
    (remove_mapping
        (add_mapping (add_mapping ClientState.init 80 "10.0.0.1".toList 8080)
          9000 "127.0.0.1".toList 22) 9000).entries =
      (add_mapping ClientState.init 80 "10.0.0.1".toList 8080).entries :=
  (C10_add_remove_restores (add_mapping ClientState.init 80 "10.0.0.1".toList 8080)
    9000 "127.0.0.1".toList 22 rfl (by decide)).2

/-- C10 (as stated) fails when the registry already has an entry for the port:
with the single entry `(80, "10.0.0.1", 8080)`, `add_mapping(80, "127.0.0.1",
22)` followed by `remove_mapping(80)` removes the old entry (the first match)
and leaves the new one. -/
theorem C10_counterexample_duplicate_port :
    (remove_mapping
        (add_mapping (add_mapping ClientState.init 80 "10.0.0.1".toList 8080)
          80 "127.0.0.1".toList 22) 80).entries = [⟨80, "127.0.0.1".toList, 22⟩] ∧
    (add_mapping ClientState.init 80 "10.0.0.1".toList 8080).entries =
      [⟨80, "10.0.0.1".toList, 8080⟩] := by
  decide

/-! ## Wire protocol: formatting and parsing of numbers -/

theorem digitChar_isdigit : ∀ d, d < 10 → isdigit (digitChar d) = true := by decide

theorem digitChar_val : ∀ d, d < 10 → (digitChar d).toNat - 48 = d := by decide

theorem isdigit_not_sign (c : Char) (h : isdigit c = true) :
    c ≠ '-' ∧ c ≠ '+' ∧ isspace c = false ∧ c ≠ '\n' ∧ c ≠ '\r' := by
  refine ⟨?_, ?_, ?_, ?_, ?_⟩
  · rintro rfl; revert h; decide
  · rintro rfl; revert h; decide
  · simp only [isdigit, Bool.and_eq_true, decide_eq_true_eq] at h
    simp only [isspace, Bool.or_eq_false_iff, decide_eq_false_iff_not, Bool.and_eq_false_iff]
    omega
  · rintro rfl; revert h; decide
  · rintro rfl; revert h; decide

theorem fmt_nat_core_chars (fuel : Nat) :
    ∀ (n : Nat) (acc : List Char), ∀ c ∈ fmt_nat_core fuel n acc,
      isdigit c = true ∨ c ∈ acc := by
  induction fuel with
  | zero => intro n acc c hc; exact Or.inr hc
  | succ fuel ih =>
    intro n acc c hc
    rw [fmt_nat_core] at hc
    split at hc
    · rename_i hn
      rcases List.mem_cons.mp hc with h | h
      · exact Or.inl (h ▸ digitChar_isdigit n hn)
      · exact Or.inr h
    · rcases ih _ _ c hc with h | h
      · exact Or.inl h
      · rcases List.mem_cons.mp h with h | h
        · exact Or.inl (h ▸ digitChar_isdigit _ (Nat.mod_lt _ (by decide)))
        · exact Or.inr h

theorem fmt_nat_core_ne_nil (fuel : Nat) :
    ∀ (n : Nat) (acc : List Char), (0 < fuel ∨ acc ≠ []) → fmt_nat_core fuel n acc ≠ [] := by
  induction fuel with
  | zero =>
    intro n acc h
    rcases h with h | h
    · omega
    · exact h
  | succ fuel ih =>
    intro n acc _
    rw [fmt_nat_core]
    split
    · simp
    · exact ih _ _ (Or.inr (by simp))

theorem fmt_nat_core_length (fuel : Nat) :
    ∀ (n d : Nat) (acc : List Char), 1 ≤ d → n < 10 ^ d →
      (fmt_nat_core fuel n acc).length ≤ d + acc.length := by
  induction fuel with
  | zero => intro n d acc _ _; simp [fmt_nat_core]
  | succ fuel ih =>
    intro n d acc hd hn
    rw [fmt_nat_core]
    split
    · simp only [List.length_cons]; omega
    · rename_i h10
      have hd2 : 2 ≤ d := by
        rcases Nat.lt_or_ge d 2 with h | h
        · have : d = 1 := by omega
          subst this
          simp at hn
          omega
        · exact h
      have hdiv : n / 10 < 10 ^ (d - 1) := by
        apply Nat.div_lt_of_lt_mul
        have : 10 ^ d = 10 * 10 ^ (d - 1) := by
          rw [← Nat.pow_succ']
          congr 1
          omega
        omega
      have := ih (n / 10) (d - 1) (digitChar (n % 10) :: acc) (by omega) hdiv
      simp only [List.length_cons] at this
      omega

theorem scan_digits_stop (rest : List Char) (a k : Nat) (h : no_digit_head rest) :
    scan_digits rest a k = (a, k, rest) := by
  cases rest with
  | nil => rfl
  | cons c cs =>
    have : isdigit c = false := h c (by simp)
    simp [scan_digits, this]

theorem scan_digits_fmt (fuel : Nat) :
    ∀ (n : Nat) (acc rest : List Char), n < fuel →
      ∃ k, 0 < k ∧
        scan_digits (fmt_nat_core fuel n acc ++ rest) 0 0 = scan_digits (acc ++ rest) n k := by
  induction fuel with
  | zero => intro n acc rest h; omega
  | succ fuel ih =>
    intro n acc rest hn
    rw [fmt_nat_core]
    split
    · rename_i h10
      refine ⟨1, by omega, ?_⟩
      simp [scan_digits, digitChar_isdigit n h10, digitChar_val n h10]
    · rename_i h10
      obtain ⟨k, hk, he⟩ := ih (n / 10) (digitChar (n % 10) :: acc) rest (by omega)
      refine ⟨k + 1, by omega, ?_⟩
      rw [he]
      have hm : n % 10 < 10 := Nat.mod_lt _ (by decide)
      simp only [List.cons_append, scan_digits, digitChar_isdigit _ hm, if_true,
        digitChar_val _ hm]
      congr 1
      omega

theorem scan_digits_fmt_nat (n : Nat) (rest : List Char) (h : no_digit_head rest) :
    ∃ k, 0 < k ∧ scan_digits (fmt_nat n ++ rest) 0 0 = (n, k, rest) := by
  obtain ⟨k, hk, he⟩ := scan_digits_fmt (n + 1) n [] rest (by omega)
  refine ⟨k, hk, ?_⟩
  rw [fmt_nat, he, List.nil_append, scan_digits_stop rest n k h]

theorem fmt_nat_head (n : Nat) :
    ∃ c t, fmt_nat n = c :: t ∧ isdigit c = true := by
  have hne : fmt_nat n ≠ [] := fmt_nat_core_ne_nil _ _ _ (Or.inl (by omega))
  cases hf : fmt_nat n with
  | nil => exact absurd hf hne
  | cons c t =>
    refine ⟨c, t, rfl, ?_⟩
    have hc : c ∈ fmt_nat_core (n + 1) n [] := by
      show c ∈ fmt_nat n
      rw [hf]; exact List.mem_cons_self _ _
    rcases fmt_nat_core_chars _ _ _ c hc with h | h
    · exact h
    · simp at h

theorem scan_int_fmt_d (n : Int) (rest : List Char) (h0 : INT_MIN ≤ n) (h1 : n ≤ INT_MAX)
    (hr : no_digit_head rest) : scan_int (fmt_d n ++ rest) = (n, true, rest) := by
  unfold INT_MIN at h0
  unfold INT_MAX at h1
  by_cases hneg : n < 0
  · obtain ⟨k, hk, he⟩ := scan_digits_fmt_nat n.natAbs rest hr
    have hsp : isspace '-' = false := by decide
    have hcl : clamp_int (-(n.natAbs : Int)) = n := by
      unfold clamp_int INT_MIN INT_MAX
      have : (n.natAbs : Int) = -n := by omega
      rw [this]
      split
      · omega
      · split <;> omega
    simp only [fmt_d, hneg, if_true, List.cons_append, scan_int,
      List.dropWhile_cons_of_neg (by simp [hsp] : ¬ isspace '-' = true), he, hcl, hk,
      decide_True]
  · obtain ⟨k, hk, he⟩ := scan_digits_fmt_nat n.toNat rest hr
    obtain ⟨c, t, hct, hd⟩ := fmt_nat_head n.toNat
    obtain ⟨c1, c2, c3, _, _⟩ := isdigit_not_sign c hd
    have hcl : clamp_int (n.toNat : Int) = n := by
      unfold clamp_int INT_MIN INT_MAX
      have : (n.toNat : Int) = n := by omega
      rw [this]
      split
      · omega
      · split <;> omega
    rw [hct, List.cons_append] at he
    simp only [fmt_d, hneg, if_false, hct, List.cons_append, scan_int,
      List.dropWhile_cons_of_neg (by simp [c3] : ¬ isspace c = true), c1, c2, he, hcl, hk,
      decide_True]

theorem fmt_d_chars (n : Int) : ∀ c ∈ fmt_d n, isdigit c = true ∨ c = '-' := by
  intro c hc
  unfold fmt_d at hc
  split at hc
  · rcases List.mem_cons.mp hc with h | h
    · exact Or.inr h
    · rcases fmt_nat_core_chars _ _ _ c h with h | h
      · exact Or.inl h
      · simp at h
  · rcases fmt_nat_core_chars _ _ _ c hc with h | h
    · exact Or.inl h
    · simp at h

theorem fmt_d_ne_nil (n : Int) : fmt_d n ≠ [] := by
  unfold fmt_d
  split
  · simp
  · exact fmt_nat_core_ne_nil _ _ _ (Or.inl (by omega))

theorem fmt_d_length (n : Int) (h0 : INT_MIN ≤ n) (h1 : n ≤ INT_MAX) :
    (fmt_d n).length ≤ 11 := by
  unfold INT_MIN at h0
  unfold INT_MAX at h1
  unfold fmt_d
  split
  · have := fmt_nat_core_length (n.natAbs + 1) n.natAbs 10 [] (by omega) (by omega)
    simp only [List.length_cons, List.length_nil, fmt_nat] at this ⊢
    omega
  · have := fmt_nat_core_length (n.toNat + 1) n.toNat 10 [] (by omega) (by omega)
    simp only [List.length_nil, fmt_nat] at this ⊢
    omega

theorem fmt_d_no_crlf (n : Int) : ∀ c ∈ fmt_d n, c ≠ '\n' ∧ c ≠ '\r' := by
  intro c hc
  rcases fmt_d_chars n c hc with h | h
  · exact ⟨(isdigit_not_sign c h).2.2.2.1, (isdigit_not_sign c h).2.2.2.2⟩
  · subst h; exact ⟨by decide, by decide⟩

/-! ## Wire protocol: lines -/

theorem recv_line_loop_line (line more : List Char) (fin : Int) :
    ∀ (room : Nat) (buf : List Char), (∀ c ∈ line, c ≠ '\n') → line.length < room →
      recv_line_loop (line ++ '\n' :: more) fin room buf =
        (((buf ++ line ++ ['\n']).length : Int), buf ++ line ++ ['\n'], more) := by
  induction line with
  | nil =>
    intro room buf _ hroom
    cases room with
    | zero => simp at hroom
    | succ room => simp [recv_line_loop]
  | cons c cs ih =>
    intro room buf hc hroom
    cases room with
    | zero => simp at hroom
    | succ room =>
      have hcn : c ≠ '\n' := hc c (List.mem_cons_self _ _)
      have := ih room (buf ++ [c]) (fun x hx => hc x (List.mem_cons_of_mem _ hx))
        (by simpa using hroom)
      simp only [List.cons_append, recv_line_loop, hcn, if_false, List.append_eq]
      rw [this]
      simp

theorem recv_line_line (line more : List Char) (fin : Int) (buflen : Nat)
    (hc : ∀ c ∈ line, c ≠ '\n') (hlen : line.length + 1 < buflen) :
    recv_line (line ++ '\n' :: more) fin buflen =
      (((line ++ ['\n']).length : Int), line ++ ['\n'], more) := by
  have := recv_line_loop_line line more fin (buflen - 1) [] hc (by omega)
  simpa [recv_line] using this

theorem trim_crlf_line (line : List Char) (c : Char) (h1 : c ≠ '\n') (h2 : c ≠ '\r') :
    trim_crlf (line ++ [c] ++ ['\n']) = line ++ [c] := by
  simp [trim_crlf, List.dropWhile, h1, h2]

theorem line_roundtrip (X : List Char) (n : Int) (more : List Char) (fin : Int)
    (buflen : Nat) (hX : ∀ c ∈ X, c ≠ '\n') (hlen : (X ++ fmt_d n).length + 1 < buflen) :
    recv_line (X ++ fmt_d n ++ '\n' :: more) fin buflen =
        ((((X ++ fmt_d n) ++ ['\n']).length : Int), (X ++ fmt_d n) ++ ['\n'], more) ∧
    trim_crlf ((X ++ fmt_d n) ++ ['\n']) = X ++ fmt_d n := by
  constructor
  · apply recv_line_line _ _ _ _ _ hlen
    intro c hc
    rcases List.mem_append.mp hc with h | h
    · exact hX c h
    · exact (fmt_d_no_crlf n c h).1
  · have hne := fmt_d_ne_nil n
    have hlast := fmt_d_no_crlf n ((fmt_d n).getLast hne) (List.getLast_mem hne)
    have hsplit : fmt_d n = (fmt_d n).dropLast ++ [(fmt_d n).getLast hne] :=
      (List.dropLast_append_getLast hne).symm
    rw [hsplit, ← List.append_assoc X]
    exact trim_crlf_line _ _ hlast.1 hlast.2

theorem atoi_fmt_d (n : Int) (rest : List Char) (h0 : INT_MIN ≤ n) (h1 : n ≤ INT_MAX)
    (hr : no_digit_head rest) : atoi (fmt_d n ++ rest) = n := by
  rw [atoi, scan_int_fmt_d n rest h0 h1 hr]

theorem no_digit_head_nil : no_digit_head [] := by
  intro c hc; simp at hc

theorem no_digit_head_space (t : List Char) : no_digit_head (' ' :: t) := by
  intro c hc
  simp only [List.head?_cons, Option.mem_def, Option.some.injEq] at hc
  subst hc; decide

theorem fmt_d_head_not_space (n : Int) (t : List Char) :
    (fmt_d n ++ t).dropWhile isspace = fmt_d n ++ t := by
  have hne := fmt_d_ne_nil n
  cases hf : fmt_d n with
  | nil => exact absurd hf hne
  | cons c cs =>
    have hc : c ∈ fmt_d n := by rw [hf]; exact List.mem_cons_self _ _
    have hsp : isspace c = false := by
      rcases fmt_d_chars n c hc with h | h
      · exact (isdigit_not_sign c h).2.2.1
      · subst h; decide
    rw [List.cons_append, List.dropWhile_cons_of_neg (by simp [hsp])]

theorem sscanf_open_args (sid p : Int) (hs0 : INT_MIN ≤ sid) (hs1 : sid ≤ INT_MAX)
    (hp0 : INT_MIN ≤ p) (hp1 : p ≤ INT_MAX) :
    sscanf_d_d (fmt_d sid ++ ' ' :: fmt_d p) = (2, sid, p) := by
  have h1 := scan_int_fmt_d sid (' ' :: fmt_d p) hs0 hs1 (no_digit_head_space _)
  have h2 := scan_int_fmt_d p [] hp0 hp1 no_digit_head_nil
  have h3 := fmt_d_head_not_space p []
  rw [List.append_nil] at h2 h3
  have hsp : isspace ' ' = true := by decide
  simp only [sscanf_d_d, h1, Bool.not_true, Bool.false_eq_true, if_false,
    List.dropWhile_cons_of_pos hsp, h3, h2]

theorem strncmp_lit (lit rest : List Char) (n : Nat) (h : lit.length = n) :
    strncmp_eq (lit ++ rest) lit n = true := by
  subst h
  simp [strncmp_eq]

theorem drop_lit (lit rest : List Char) (n : Nat) (h : lit.length = n) :
    (lit ++ rest).drop n = rest := by
  subst h
  simp

theorem main_iter_data (st : ServerState) (s : SOCKET) (sid : Int) (more : List Char)
    (fin : Int) (env : ListenEnv) (th : HANDLE) (hs : s ≠ INVALID_SOCKET)
    (h0 : INT_MIN ≤ sid) (h1 : sid ≤ INT_MAX) :
    main_iter st s (data_msg sid ++ more) fin env th =
      if (pop_pending st sid).1 = INVALID_SOCKET then
        ((pop_pending st sid).2, [Effect.closesocket s])
      else ((pop_pending st sid).2, [Effect.start_proxy_pair (pop_pending st sid).1 s]) := by
  have hin : data_msg sid ++ more = "DATA ".toList ++ fmt_d sid ++ '\n' :: more := by
    simp [data_msg]
  have hl := fmt_d_length sid h0 h1
  obtain ⟨hrl, htr⟩ := line_roundtrip "DATA ".toList sid more fin 256 (by decide)
    (by simp only [List.length_append]; have : "DATA ".toList.length = 5 := rfl; omega)
  have hpos : ¬ ((("DATA ".toList ++ fmt_d sid ++ ['\n']).length : Int) ≤ 0) := by
    simp only [List.length_append, List.length_singleton]; omega
  have hat : atoi (fmt_d sid) = sid := by
    have := atoi_fmt_d sid [] h0 h1 no_digit_head_nil
    rwa [List.append_nil] at this
  rw [main_iter, hin]
  simp only [hs, if_false, hrl, hpos, htr, strncmp_lit "DATA ".toList (fmt_d sid) 5 rfl,
    if_true, drop_lit "DATA ".toList (fmt_d sid) 5 rfl, hat]

theorem control_reader_open (cs : ClientState) (sid p : Int) (more : List Char)
    (fin : Int) (srv loc : ConnectEnv) (hs0 : INT_MIN ≤ sid) (hs1 : sid ≤ INT_MAX)
    (hp0 : INT_MIN ≤ p) (hp1 : p ≤ INT_MAX) :
    control_reader_line cs (open_msg sid p ++ more) fin srv loc =
      some (handle_open cs sid p srv loc) := by
  have hin : open_msg sid p ++ more =
      ("OPEN ".toList ++ (fmt_d sid ++ [' '])) ++ fmt_d p ++ '\n' :: more := by
    simp [open_msg]
  have hl1 := fmt_d_length sid hs0 hs1
  have hl2 := fmt_d_length p hp0 hp1
  have h5 : "OPEN ".toList.length = 5 := rfl
  obtain ⟨hrl, htr⟩ := line_roundtrip ("OPEN ".toList ++ (fmt_d sid ++ [' '])) p more fin 512
    (by
      intro c hc
      rcases List.mem_append.mp hc with h | h
      · exact (by decide : ∀ x ∈ "OPEN ".toList, x ≠ '\n') c h
      · rcases List.mem_append.mp h with h | h
        · exact (fmt_d_no_crlf sid c h).1
        · simp only [List.mem_singleton] at h; subst h; decide)
    (by simp only [List.length_append, List.length_singleton]; omega)
  have hpos : ¬ (((("OPEN ".toList ++ (fmt_d sid ++ [' '])) ++ fmt_d p ++ ['\n']).length : Int)
      ≤ 0) := by
    simp only [List.length_append, List.length_singleton]; omega
  have hne : ¬ (("OPEN ".toList ++ (fmt_d sid ++ [' '])) ++ fmt_d p).length = 0 := by
    simp only [List.length_append, List.length_singleton]; omega
  have hassoc : ("OPEN ".toList ++ (fmt_d sid ++ [' '])) ++ fmt_d p =
      "OPEN ".toList ++ (fmt_d sid ++ ' ' :: fmt_d p) := by simp
  have hsc := sscanf_open_args sid p hs0 hs1 hp0 hp1
  rw [control_reader_line, hin]
  simp only [hrl, hpos, if_false, htr, hne]
  rw [hassoc]
  simp only [strncmp_lit "OPEN ".toList _ 5 rfl, if_true, drop_lit "OPEN ".toList _ 5 rfl,
    hsc, ge_iff_le]
  rfl

theorem control_line_listen (st : ServerState) (p q : Int) (a more : List Char)
    (fin : Int) (env : ListenEnv) (th : HANDLE) (hp0 : 1 ≤ p) (hp1 : p ≤ 65535)
    (ha : ∀ c ∈ a, isspace c = false) (hal : a.length ≤ 63)
    (hq0 : INT_MIN ≤ q) (hq1 : q ≤ INT_MAX) :
    handle_control_line st (listen_msg p a q ++ more) fin env th =
      some (start_tunnel st p env th) := by
  have hpmin : INT_MIN ≤ p := by unfold INT_MIN; omega
  have hpmax : p ≤ INT_MAX := by unfold INT_MAX; omega
  have hin : listen_msg p a q ++ more =
      ("LISTEN ".toList ++ (fmt_d p ++ ' ' :: (a ++ [' ']))) ++ fmt_d q ++ '\n' :: more := by
    simp [listen_msg]
  have hl1 := fmt_d_length p hpmin hpmax
  have hl2 := fmt_d_length q hq0 hq1
  have h7 : "LISTEN ".toList.length = 7 := rfl
  obtain ⟨hrl, htr⟩ :=
    line_roundtrip ("LISTEN ".toList ++ (fmt_d p ++ ' ' :: (a ++ [' ']))) q more fin 512
    (by
      intro c hc
      rcases List.mem_append.mp hc with h | h
      · exact (by decide : ∀ x ∈ "LISTEN ".toList, x ≠ '\n') c h
      · rcases List.mem_append.mp h with h | h
        · exact (fmt_d_no_crlf p c h).1
        · rcases List.mem_cons.mp h with h | h
          · subst h; decide
          · rcases List.mem_append.mp h with h | h
            · have := ha c h
              rintro rfl
              revert this; decide
            · simp only [List.mem_singleton] at h; subst h; decide)
    (by simp only [List.length_append, List.length_cons, List.length_singleton,
          List.length_nil]; omega)
  have hpos : ¬ (((("LISTEN ".toList ++ (fmt_d p ++ ' ' :: (a ++ [' ']))) ++ fmt_d q ++
      ['\n']).length : Int) ≤ 0) := by
    simp only [List.length_append, List.length_singleton]; omega
  have hne : ¬ (("LISTEN ".toList ++ (fmt_d p ++ ' ' :: (a ++ [' ']))) ++ fmt_d q).length = 0 := by
    simp only [List.length_append, List.length_singleton]; omega
  have hassoc : ("LISTEN ".toList ++ (fmt_d p ++ ' ' :: (a ++ [' ']))) ++ fmt_d q =
      "LISTEN ".toList ++ (fmt_d p ++ ' ' :: (a ++ [' '] ++ fmt_d q)) := by simp
  have hat : atoi (fmt_d p ++ ' ' :: (a ++ [' '] ++ fmt_d q)) = p :=
    atoi_fmt_d p _ hpmin hpmax (no_digit_head_space _)
  have hgt : p > 0 := by omega
  rw [handle_control_line, hin]
  simp only [hrl, hpos, if_false, htr, hne]
  rw [hassoc, control_command]
  simp only [strncmp_lit "LISTEN ".toList _ 7 rfl, if_true, drop_lit "LISTEN ".toList _ 7 rfl,
    hat, hgt]

theorem control_line_close (st : ServerState) (p : Int) (more : List Char)
    (fin : Int) (env : ListenEnv) (th : HANDLE) (hp0 : 1 ≤ p) (hp1 : p ≤ 65535) :
    handle_control_line st (close_msg p ++ more) fin env th = some (stop_tunnel st p) := by
  have hpmin : INT_MIN ≤ p := by unfold INT_MIN; omega
  have hpmax : p ≤ INT_MAX := by unfold INT_MAX; omega
  have hin : close_msg p ++ more = "CLOSE ".toList ++ fmt_d p ++ '\n' :: more := by
    simp [close_msg]
  have hl1 := fmt_d_length p hpmin hpmax
  have h6 : "CLOSE ".toList.length = 6 := rfl
  obtain ⟨hrl, htr⟩ := line_roundtrip "CLOSE ".toList p more fin 512 (by decide)
    (by simp only [List.length_append]; omega)
  have hpos : ¬ ((("CLOSE ".toList ++ fmt_d p ++ ['\n']).length : Int) ≤ 0) := by
    simp only [List.length_append, List.length_singleton]; omega
  have hne : ¬ ("CLOSE ".toList ++ fmt_d p).length = 0 := by
    simp only [List.length_append]; omega
  have hat : atoi (fmt_d p) = p := by
    have := atoi_fmt_d p [] hpmin hpmax no_digit_head_nil
    rwa [List.append_nil] at this
  have hnl : strncmp_eq ("CLOSE ".toList ++ fmt_d p) "LISTEN ".toList 7 = false := by
    simp [strncmp_eq]
  have hgt : p > 0 := by omega
  rw [handle_control_line, hin]
  simp only [hrl, hpos, if_false, htr, hne]
  rw [control_command]
  simp only [hnl, Bool.false_eq_true, if_false, strncmp_lit "CLOSE ".toList _ 6 rfl, if_true,
    drop_lit "CLOSE ".toList _ 6 rfl, hat, hgt]

/-- C9: the wire protocol round-trips between the two programs.
(1) For all `int` values `sid` and `p`, the client's `control_reader`, reading
the line `OPEN <sid> <p>\n` the server's acceptor writes, calls
`handle_open(sid, p)`.
(2) For every `int` value `sid`, the server's `main`, reading the first line
`DATA <sid>\n` the client writes, dispatches on `pop_pending(sid)`.
(3) For every port `1 <= p <= 65535`, every address `a` without white space of
at most 63 characters and every `int` value `q`, the server's
`handle_control_socket`, reading the client's line `LISTEN <p> <a> <q>\n`,
calls `start_tunnel(p)` (`a` and `q` play no part).
(4) For every such `p`, reading the client's line `CLOSE <p>\n` it calls
`stop_tunnel(p)`.
In all four cases whatever else the socket holds behind the line (`more`) is
left alone. -/
theorem C9_wire_roundtrip :
    (∀ (cs : ClientState) (sid p : Int) (more : List Char) (fin : Int)
        (srv loc : ConnectEnv),
      INT_MIN ≤ sid → sid ≤ INT_MAX → INT_MIN ≤ p → p ≤ INT_MAX →
      control_reader_line cs (open_msg sid p ++ more) fin srv loc =
        some (handle_open cs sid p srv loc)) ∧
    (∀ (st : ServerState) (s : SOCKET) (sid : Int) (more : List Char) (fin : Int)
        (env : ListenEnv) (th : HANDLE),
      s ≠ INVALID_SOCKET → INT_MIN ≤ sid → sid ≤ INT_MAX →
      main_iter st s (data_msg sid ++ more) fin env th =
        if (pop_pending st sid).1 = INVALID_SOCKET then
          ((pop_pending st sid).2, [Effect.closesocket s])
        else
          ((pop_pending st sid).2, [Effect.start_proxy_pair (pop_pending st sid).1 s])) ∧
    (∀ (st : ServerState) (p q : Int) (a more : List Char) (fin : Int) (env : ListenEnv)
        (th : HANDLE),
      1 ≤ p → p ≤ 65535 → (∀ c ∈ a, isspace c = false) → a.length ≤ 63 →
      INT_MIN ≤ q → q ≤ INT_MAX →
      handle_control_line st (listen_msg p a q ++ more) fin env th =
        some (start_tunnel st p env th)) ∧
    (∀ (st : ServerState) (p : Int) (more : List Char) (fin : Int) (env : ListenEnv)
        (th : HANDLE),
      1 ≤ p → p ≤ 65535 →
      handle_control_line st (close_msg p ++ more) fin env th =
        some (stop_tunnel st p)) :=
  ⟨fun cs sid p more fin srv loc h1 h2 h3 h4 =>
      control_reader_open cs sid p more fin srv loc h1 h2 h3 h4,
   fun st s sid more fin env th h1 h2 h3 => main_iter_data st s sid more fin env th h1 h2 h3,
   fun st p q a more fin env th h1 h2 h3 h4 h5 h6 =>
      control_line_listen st p q a more fin env th h1 h2 h3 h4 h5 h6,
   fun st p more fin env th h1 h2 => control_line_close st p more fin env th h1 h2⟩

theorem C9_wire_roundtrip_witness :
    control_reader_line (add_mapping ClientState.init 9000 "127.0.0.1".toList 22)
        ("OPEN 1 9000\n".toList ++ []) 0 ⟨0, 10, 0⟩ ⟨0, 11, 0⟩ =
      some (handle_open (add_mapping ClientState.init 9000 "127.0.0.1".toList 22) 1 9000
        ⟨0, 10, 0⟩ ⟨0, 11, 0⟩) ∧
    handle_control_line (ServerState.init 3)
        ("LISTEN 9000 127.0.0.1 22\n".toList ++ []) 0 ⟨0, 4, 0, 0⟩ 1 =
      some (start_tunnel (ServerState.init 3) 9000 ⟨0, 4, 0, 0⟩ 1) :=
  ⟨C9_wire_roundtrip.1 (add_mapping ClientState.init 9000 "127.0.0.1".toList 22) 1 9000 []
      0 ⟨0, 10, 0⟩ ⟨0, 11, 0⟩ (by decide) (by decide) (by decide) (by decide),
   C9_wire_roundtrip.2.2.1 (ServerState.init 3) 9000 22 "127.0.0.1".toList [] 0
      ⟨0, 4, 0, 0⟩ 1 (by decide) (by decide) (by decide) (by decide) (by decide) (by decide)⟩

/-! ## Line length -/

theorem recv_line_loop_stored (input : List Char) (fin : Int) (room : Nat) :
    ∀ (buf : List Char), (recv_line_loop input fin room buf).2.1.length ≤ buf.length + room := by
  induction room generalizing input with
  | zero => intro buf; simp [recv_line_loop]
  | succ room ih =>
    intro buf
    cases input with
    | nil => simp [recv_line_loop]
    | cons c rest =>
      rw [recv_line_loop]
      split
      · simp
      · have := ih rest (buf ++ [c])
        simp only [List.length_append, List.length_singleton] at this
        omega

theorem recv_line_loop_full (line more : List Char) (fin : Int) :
    ∀ (buf : List Char), (∀ c ∈ line, c ≠ '\n') →
      recv_line_loop (line ++ more) fin line.length buf =
        (((buf ++ line).length : Int), buf ++ line, more) := by
  induction line with
  | nil => intro buf _; simp [recv_line_loop]
  | cons c cs ih =>
    intro buf hc
    have hcn : c ≠ '\n' := hc c (List.mem_cons_self _ _)
    have := ih (buf ++ [c]) (fun x hx => hc x (List.mem_cons_of_mem _ hx))
    simp only [List.cons_append, List.length_cons, recv_line_loop, hcn, if_false,
      List.append_eq]
    rw [this]
    simp

theorem recv_line_full_buffer (n : Nat) (c : Char) (hc : c ≠ '\n') :
    (List.replicate n c ++ ['\n']).length = n + 1 ∧
    recv_line (List.replicate n c ++ ['\n']) 0 (n + 1) =
      ((n : Int), List.replicate n c, ['\n']) := by
  refine ⟨by simp, ?_⟩
  have h := recv_line_loop_full (List.replicate n c) ['\n'] 0 []
    (fun x hx => by rw [List.eq_of_mem_replicate hx]; exact hc)
  simp only [List.length_replicate, List.nil_append] at h
  simpa [recv_line] using h

/-- C11 (amended): `recv_line` returns a whole LF-terminated line, up to and
including its LF, in a single call when the line has at most 255 bytes at the
first-line read of the server acceptor (buffer of 256) and at most 256 bytes
at the server controller reader and the client control reader (buffers of
512); the rest of the socket's data stays unread.  Whatever arrives, a call
stores at most `buflen - 1` bytes (the terminating NUL is the byte after
them). -/
theorem C11_line_length (body more : List Char) (fin : Int)
    (hbody : ∀ c ∈ body, c ≠ '\n') :
    (body.length + 1 ≤ 255 →
      recv_line (body ++ '\n' :: more) fin 256 =
        (((body ++ ['\n']).length : Int), body ++ ['\n'], more)) ∧
    (body.length + 1 ≤ 256 →
      recv_line (body ++ '\n' :: more) fin 512 =
        (((body ++ ['\n']).length : Int), body ++ ['\n'], more)) ∧
    (∀ (input : List Char) (buflen : Nat),
      (recv_line input fin buflen).2.1.length ≤ buflen - 1) := by
  refine ⟨fun h => ?_, fun h => ?_, fun input buflen => ?_⟩
  · exact recv_line_line body more fin 256 hbody (by omega)
  · exact recv_line_line body more fin 512 hbody (by omega)
  · have := recv_line_loop_stored input fin (buflen - 1) []
    simpa [recv_line] using this

theorem C11_line_length_witness :
    recv_line ("LISTEN 9000 127.0.0.1 22".toList ++ '\n' :: "CLOSE 9000\n".toList) 0 256 =
      ((("LISTEN 9000 127.0.0.1 22".toList ++ ['\n']).length : Int),
        "LISTEN 9000 127.0.0.1 22".toList ++ ['\n'], "CLOSE 9000\n".toList) ∧
    recv_line ("OPEN 1 9000".toList ++ '\n' :: []) 0 512 =
      ((("OPEN 1 9000".toList ++ ['\n']).length : Int), "OPEN 1 9000".toList ++ ['\n'], []) :=
  ⟨(C11_line_length "LISTEN 9000 127.0.0.1 22".toList "CLOSE 9000\n".toList 0
      (by decide)).1 (by decide),
   (C11_line_length "OPEN 1 9000".toList [] 0 (by decide)).2.1 (by decide)⟩

/-- C11 (as stated) fails at the first-line read of the server acceptor: of a
line of 256 bytes (255 times `a`, then LF) the call with the buffer of 256
returns the 255 bytes in front of the LF and leaves the LF on the socket. -/
theorem C11_counterexample_256_byte_line :
    (List.replicate 255 'a' ++ ['\n']).length = 256 ∧
    recv_line (List.replicate 255 'a' ++ ['\n']) 0 256 =
      (255, List.replicate 255 'a', ['\n']) := by
  exact recv_line_full_buffer 255 'a' (by decide)

/-! ## The port recorded for a session -/

/-- C12 (failing input): the controller (socket 10) sends `LISTEN 9000` and
`LISTEN 9001`; the acceptor of port 9001 is started on `tunnels[1]` and blocks
in `accept` on its listener 5.  Then `CLOSE 9000` moves the entry of port 9001
to `tunnels[0]` and `LISTEN 9002` (listener 6) reuses `tunnels[1]`.  Listener 5
still belongs to port 9001, but when its `accept` now returns the external
socket 7, the acceptor reads the port through its pointer to `tunnels[1]`:
the pending entry is `(1, 7, 9002)` and the line sent is `OPEN 1 9002`.  Its
next `accept` call would be on listener 6. -/
theorem C12_port_of_reused_slot :
    accept_call
        (run (ServerState.init 3)
          [Event.main_accept 10 "LISTEN 9000\n".toList 0 ⟨0, 4, 0, 0⟩ 1,
           Event.control_line "LISTEN 9001\n".toList 0 ⟨0, 5, 0, 0⟩ 2]) 1 = ⟨1, 5⟩ ∧
    listener_port
        (run (ServerState.init 3)
          [Event.main_accept 10 "LISTEN 9000\n".toList 0 ⟨0, 4, 0, 0⟩ 1,
           Event.control_line "LISTEN 9001\n".toList 0 ⟨0, 5, 0, 0⟩ 2,
           Event.control_line "CLOSE 9000\n".toList 0 ⟨0, 0, 0, 0⟩ 0,
           Event.control_line "LISTEN 9002\n".toList 0 ⟨0, 6, 0, 0⟩ 3]) 5 = some 9001 ∧
    (accept_return
        (run (ServerState.init 3)
          [Event.main_accept 10 "LISTEN 9000\n".toList 0 ⟨0, 4, 0, 0⟩ 1,
           Event.control_line "LISTEN 9001\n".toList 0 ⟨0, 5, 0, 0⟩ 2,
           Event.control_line "CLOSE 9000\n".toList 0 ⟨0, 0, 0, 0⟩ 0,
           Event.control_line "LISTEN 9002\n".toList 0 ⟨0, 6, 0, 0⟩ 3])
        ⟨1, 5⟩ 7 true).map (fun r => (r.1.pending, r.2)) =
      some ([⟨1, 7, 9002⟩], [Effect.send 10 "OPEN 1 9002\n".toList]) ∧
    accept_call
        (run (ServerState.init 3)
          [Event.main_accept 10 "LISTEN 9000\n".toList 0 ⟨0, 4, 0, 0⟩ 1,
           Event.control_line "LISTEN 9001\n".toList 0 ⟨0, 5, 0, 0⟩ 2,
           Event.control_line "CLOSE 9000\n".toList 0 ⟨0, 0, 0, 0⟩ 0,
           Event.control_line "LISTEN 9002\n".toList 0 ⟨0, 6, 0, 0⟩ 3]) 1 = ⟨1, 6⟩ := by
  decide

end Rportfwd
